import Mathlib

/-
Verification of the oxmon core: the Monitor session-reconciliation engine
and the timeline-bucket reconstruction algorithm.

Shallow embedding of the Rust sources:
  - oxmon-common/src/lib.rs : shared data types
  - oxmon-db/src/lib.rs     : Database operations over in-memory tables
  - oxmon-core/src/lib.rs   : ping_host
  - oxmon-core/src/monitor.rs : Monitor startup, ticking, shutdown

Timestamps (chrono DateTime<Utc>) are modelled as Int (seconds); SQLite
tables are modelled as Lean lists kept in insertion order with
AUTOINCREMENT ids generated as (max id so far) + 1, so insertion order is
increasing-id order.  f64 latencies are modelled as Rat (no latency
arithmetic is relied upon by any theorem).
-/

namespace Oxmon

/-- Host online/offline status (oxmon-common `Status`). -/
inductive Status where
  | online
  | offline
deriving DecidableEq, Repr

/-- Type of state transition (oxmon-common `EventType`). -/
inductive EventType where
  | online
  | offline
  | unknown
deriving DecidableEq, Repr

/-- Conversion `impl From<Status> for EventType` (oxmon-common). -/
def Status.toEventType : Status → EventType
  | .online => .online
  | .offline => .offline

/-- Timeline bucket state (oxmon-common `TimelineBucketState`). -/
inductive TimelineBucketState where
  | online
  | offline
  | noData
deriving DecidableEq, Repr

/-- A row of the `hosts` table (oxmon-db migrations). -/
structure Host where
  id : Int
  hostname : String
  ip_address : String
  created_at : Int
  first_inserted : Option Int
deriving DecidableEq, Repr

/-- State transition event for a host (oxmon-common `HostEvent`,
rows of the `host_events` table). -/
structure HostEvent where
  id : Int
  host_id : Int
  event_type : EventType
  timestamp : Int
deriving DecidableEq, Repr

/-- A row of the `ping_results` table. -/
structure PingRow where
  id : Int
  host_id : Int
  success_count : Nat
  total_count : Nat
  avg_latency_ms : Option Rat
  timestamp : Int
deriving DecidableEq, Repr

/-- Server session tracking (oxmon-common `ServerSession`,
rows of the `server_sessions` table). -/
structure ServerSession where
  id : Int
  started_at : Int
  stopped_at : Option Int
  shutdown_type : Option String
deriving DecidableEq, Repr

/-- Configuration for a single host to monitor (oxmon-common
`HostConfig`); the IpAddr is modelled by its string form. -/
structure HostConfig where
  hostname : String
  ip_address : String
deriving DecidableEq, Repr

/-- The SQLite database: the four tables created by `run_migrations`,
each held in insertion order. -/
structure Db where
  hosts : List Host
  host_events : List HostEvent
  ping_results : List PingRow
  server_sessions : List ServerSession
deriving DecidableEq, Repr

/-- The empty, freshly-migrated database. -/
def Db.empty : Db := ⟨[], [], [], []⟩

/-- Next AUTOINCREMENT id for the `hosts` table. -/
def nextHostId (db : Db) : Int :=
  (db.hosts.map (·.id)).foldl max 0 + 1

/-- Next AUTOINCREMENT id for the `host_events` table. -/
def nextEventId (db : Db) : Int :=
  (db.host_events.map (·.id)).foldl max 0 + 1

/-- Next AUTOINCREMENT id for the `ping_results` table. -/
def nextPingId (db : Db) : Int :=
  (db.ping_results.map (·.id)).foldl max 0 + 1

/-- Next AUTOINCREMENT id for the `server_sessions` table. -/
def nextSessionId (db : Db) : Int :=
  (db.server_sessions.map (·.id)).foldl max 0 + 1

/-- Database::upsert_host (oxmon-db).  Looks up a row with the given
hostname and ip_address; if present returns its id with is_new = false,
otherwise inserts a fresh row (created_at defaults to now) and returns
the new id with is_new = true.  Result is (host_id, is_new, db). -/
def upsert_host (db : Db) (config : HostConfig) (now : Int) :
    Int × Bool × Db :=
  match db.hosts.find? (fun h =>
      h.hostname == config.hostname && h.ip_address == config.ip_address) with
  | some h => (h.id, false, db)
  | none =>
    let id := nextHostId db
    (id, true,
      { db with hosts := db.hosts ++
          [{ id := id, hostname := config.hostname,
             ip_address := config.ip_address, created_at := now,
             first_inserted := none }] })

/-- Database::set_first_inserted (oxmon-db): write-once update of the
`first_inserted` column (WHERE id = ? AND first_inserted IS NULL). -/
def set_first_inserted (db : Db) (host_id : Int) (timestamp : Int) : Db :=
  { db with hosts := db.hosts.map (fun h =>
      if h.id == host_id && h.first_inserted == none then
        { h with first_inserted := some timestamp }
      else h) }

/-- Database::record_event (oxmon-db): append a host event; the
timestamp defaults to the insertion time `now`. -/
def record_event (db : Db) (host_id : Int) (event_type : EventType)
    (now : Int) : Db :=
  { db with host_events := db.host_events ++
      [{ id := nextEventId db, host_id := host_id,
         event_type := event_type, timestamp := now }] }

/-- Database::record_ping_result (oxmon-db): append a ping row; the
timestamp defaults to the insertion time `now`. -/
def record_ping_result (db : Db) (host_id : Int) (success_count : Nat)
    (total_count : Nat) (avg_latency_ms : Option Rat) (now : Int) : Db :=
  { db with ping_results := db.ping_results ++
      [{ id := nextPingId db, host_id := host_id,
         success_count := success_count, total_count := total_count,
         avg_latency_ms := avg_latency_ms, timestamp := now }] }

/-- Database::get_hosts (oxmon-db): SELECT id, hostname, ip_address
FROM hosts. -/
def get_hosts (db : Db) : List (Int × HostConfig) :=
  db.hosts.map (fun h => (h.id, ⟨h.hostname, h.ip_address⟩))

/-- Database::create_session (oxmon-db): INSERT INTO server_sessions
DEFAULT VALUES (started_at defaults to now); returns the new row id. -/
def create_session (db : Db) (now : Int) : Db × Int :=
  let id := nextSessionId db
  ({ db with server_sessions := db.server_sessions ++
      [{ id := id, started_at := now, stopped_at := none,
         shutdown_type := none }] }, id)

/-- Database::get_last_session (oxmon-db): ORDER BY id DESC LIMIT 1.
Rows are appended with strictly increasing AUTOINCREMENT ids, so the
max-id row is the last row of the list. -/
def get_last_session (db : Db) : Option ServerSession :=
  db.server_sessions.getLast?

/-- Database::close_session (oxmon-db): UPDATE server_sessions SET
stopped_at = ?, shutdown_type = ? WHERE id = ?. -/
def close_session (db : Db) (session_id : Int) (stopped_at : Int)
    (shutdown_type : String) : Db :=
  { db with server_sessions := db.server_sessions.map (fun ss =>
      if ss.id == session_id then
        { ss with stopped_at := some stopped_at,
                  shutdown_type := some shutdown_type }
      else ss) }

/-- Database::get_last_ping_timestamp (oxmon-db): SELECT timestamp FROM
ping_results ORDER BY timestamp DESC LIMIT 1, i.e. the maximum ping
timestamp, none when no ping was ever recorded. -/
def get_last_ping_timestamp (db : Db) : Option Int :=
  (db.ping_results.map (·.timestamp)).max?

/-- Database::get_all_sessions (oxmon-db): SELECT ... ORDER BY id; rows
are stored in increasing-id insertion order. -/
def get_all_sessions (db : Db) : List ServerSession :=
  db.server_sessions

/-- Ascending-timestamp order on host events (the ORDER BY timestamp
ASC of get_host_events_in_range). -/
def tsLe (a b : HostEvent) : Prop := a.timestamp ≤ b.timestamp

instance : DecidableRel tsLe := fun a b => Int.decLe a.timestamp b.timestamp

instance : IsTotal HostEvent tsLe :=
  ⟨fun a b => Int.le_total a.timestamp b.timestamp⟩

instance : IsTrans HostEvent tsLe :=
  ⟨fun _ _ _ hab hbc => Int.le_trans hab hbc⟩

/-- Database::get_host_events_in_range (oxmon-db): events of the host
with timestamp in the closed range [start_time, end_time], ordered by
ascending timestamp. -/
def get_host_events_in_range (db : Db) (host_id : Int)
    (start_time end_time : Int) : List HostEvent :=
  List.insertionSort tsLe (db.host_events.filter (fun ev =>
    ev.host_id == host_id && decide (start_time ≤ ev.timestamp) &&
      decide (ev.timestamp ≤ end_time)))

/-- Database::get_sessions_in_range (oxmon-db): sessions with
started_at <= end_time AND (stopped_at IS NULL OR stopped_at >=
start_time).  The table is already in ascending started_at order for
rows produced by this program (ORDER BY started_at ASC). -/
def get_sessions_in_range (db : Db) (start_time end_time : Int) :
    List ServerSession :=
  db.server_sessions.filter (fun ss =>
    decide (ss.started_at ≤ end_time) &&
      (match ss.stopped_at with
       | none => true
       | some st => decide (start_time ≤ st)))

/-- Overlap test of one session with a bucket, from
determine_bucket_state: session_start < bucket_end && session_end >
bucket_start, where session_end is stopped_at.unwrap_or_else(Utc::now).
The ambient clock is the explicit parameter `now`. -/
def session_overlaps (now : Int) (session : ServerSession)
    (bucket_start bucket_end : Int) : Bool :=
  let session_start := session.started_at
  let session_end := session.stopped_at.getD now
  decide (session_start < bucket_end) && decide (session_end > bucket_start)

/-- Check if the server was running during this bucket
(determine_bucket_state, first step). -/
def server_running (now : Int) (sessions : List ServerSession)
    (bucket_start bucket_end : Int) : Bool :=
  sessions.any (fun session => session_overlaps now session bucket_start bucket_end)

/-- Events that occur within the bucket: timestamp >= bucket_start &&
timestamp < bucket_end (determine_bucket_state). -/
def events_in_bucket (events : List HostEvent)
    (bucket_start bucket_end : Int) : List HostEvent :=
  events.filter (fun e =>
    decide (bucket_start ≤ e.timestamp) && decide (e.timestamp < bucket_end))

/-- The most recent event before the bucket starts:
events.iter().rev().find(|e| e.timestamp < bucket_start)
(determine_bucket_state; events arrive in ascending timestamp order). -/
def event_before_bucket (events : List HostEvent) (bucket_start : Int) :
    Option HostEvent :=
  events.reverse.find? (fun e => decide (e.timestamp < bucket_start))

/-- The final match of determine_bucket_state: the state inherited from
the most recent event before the bucket, NoData when there is none. -/
def inherited_state : Option HostEvent → TimelineBucketState
  | some event =>
    match event.event_type with
    | .online => TimelineBucketState.online
    | .offline => TimelineBucketState.offline
    | .unknown => TimelineBucketState.noData
  | none => TimelineBucketState.noData

/-- Database::determine_bucket_state (oxmon-db).  Priority order:
1. Offline if ANY offline event occurs during the bucket;
2. NoData if the server was not running or an unknown event occurs;
3. Online if an online event occurs during the bucket;
otherwise inherit from the most recent event before the bucket. -/
def determine_bucket_state (now : Int) (events : List HostEvent)
    (sessions : List ServerSession) (bucket_start bucket_end : Int) :
    TimelineBucketState :=
  if !(server_running now sessions bucket_start bucket_end) then
    .noData
  else
    let in_bucket := events_in_bucket events bucket_start bucket_end
    if in_bucket.any (fun e => e.event_type == EventType.offline) then
      .offline
    else if in_bucket.any (fun e => e.event_type == EventType.unknown) then
      .noData
    else if in_bucket.any (fun e => e.event_type == EventType.online) then
      .online
    else
      inherited_state (event_before_bucket events bucket_start)

/-- Database::get_host_timeline (oxmon-db).  bucket_duration is the
unguarded i64 division (end - start).num_seconds() / num_buckets
(Rust `/` on i64 truncates toward zero, Int.tdiv); num_buckets = 0
reaches the division-by-zero panic, modelled as none.  Otherwise one
bucket state per i in 0..num_buckets. -/
def get_host_timeline (now : Int) (db : Db) (host_id : Int)
    (start_time end_time : Int) (num_buckets : Nat) :
    Option (List TimelineBucketState) :=
  if num_buckets = 0 then none
  else
    let bucket_duration := Int.tdiv (end_time - start_time) (num_buckets : Int)
    let events := get_host_events_in_range db host_id start_time end_time
    let sessions := get_sessions_in_range db start_time end_time
    some ((List.range num_buckets).map (fun i =>
      let bucket_start := start_time + bucket_duration * Int.ofNat i
      let bucket_end := bucket_start + bucket_duration
      determine_bucket_state now events sessions bucket_start bucket_end))

/-- Start of the i-th bucket window of get_host_timeline:
start_time + bucket_duration * i. -/
def bucket_window_start (start_time end_time : Int) (num_buckets i : Nat) :
    Int :=
  start_time +
    Int.tdiv (end_time - start_time) (num_buckets : Int) * Int.ofNat i

/-- End of the i-th bucket window of get_host_timeline (half-open). -/
def bucket_window_end (start_time end_time : Int) (num_buckets i : Nat) :
    Int :=
  bucket_window_start start_time end_time num_buckets i +
    Int.tdiv (end_time - start_time) (num_buckets : Int)

/-- Current status of a monitored host (oxmon-common `HostStatus`). -/
structure HostStatus where
  id : Int
  hostname : String
  ip_address : String
  status : Status
  last_check : Int
  success_count : Nat
  total_count : Nat
  avg_latency_ms : Option Rat
deriving DecidableEq, Repr

/-- The in-memory status map HashMap<i64, HostStatus>, modelled as an
association list with unique keys. -/
abbrev StatusMap := List (Int × HostStatus)

/-- HashMap::get on the status map. -/
def statusMapGet (map : StatusMap) (host_id : Int) : Option HostStatus :=
  (map.find? (fun p => p.1 == host_id)).map (·.2)

/-- HashMap::insert on the status map: replace the entry if the key is
present, otherwise add it. -/
def statusMapInsert (map : StatusMap) (host_id : Int) (hs : HostStatus) :
    StatusMap :=
  if map.any (fun p => p.1 == host_id) then
    map.map (fun p => if p.1 == host_id then (host_id, hs) else p)
  else map ++ [(host_id, hs)]

/-- The Monitor (oxmon-core monitor.rs). -/
structure Monitor where
  db : Db
  hosts : List (Int × HostConfig)
  status_map : StatusMap
  session_id : Int

/-- Result of a ping check (oxmon-common `PingResult`). -/
structure PingResult where
  hostname : String
  ip_address : String
  success_count : Nat
  total_count : Nat
  latencies_ms : List Rat
  timestamp : Int

/-- PingResult::avg_latency_ms (oxmon-common). -/
def PingResult.avg_latency_ms (r : PingResult) : Option Rat :=
  if r.latencies_ms.isEmpty then none
  else some (r.latencies_ms.sum / (r.latencies_ms.length : Rat))

/-- PingResult::is_online (oxmon-common): success_count > 0. -/
def PingResult.is_online (r : PingResult) : Bool :=
  decide (r.success_count > 0)

/-- Outcome of the single surge_ping probe inside ping_host: the probe
may answer with a latency, report a transport failure, or hit the
10-second tokio timeout. -/
inductive ProbeOutcome where
  | success (latency_ms : Rat)
  | failure
  | timeout
deriving DecidableEq, Repr

/-- The PingResult built by ping_host (oxmon-core lib.rs).  The probe
result is matched with `if let Ok(Ok((_, duration)))`: only a success
pushes a latency; a transport failure or a timeout leaves latencies
empty, giving success_count = 0. -/
def ping_result (host : HostConfig) (outcome : ProbeOutcome) (now : Int) :
    PingResult :=
  let latencies : List Rat :=
    match outcome with
    | .success latency_ms => [latency_ms]
    | .failure => []
    | .timeout => []
  { hostname := host.hostname, ip_address := host.ip_address,
    success_count := latencies.length, total_count := 1,
    latencies_ms := latencies, timestamp := now }

/-- ping_host (oxmon-core lib.rs) returns Ok in every case — a probe
error or timeout is never surfaced as an application error. -/
def ping_host (host : HostConfig) (outcome : ProbeOutcome) (now : Int) :
    Except String PingResult :=
  .ok (ping_result host outcome now)

/-- The classification check_host derives from a probe outcome:
Online iff the ping reported any success (monitor.rs check_host). -/
def tick_classification (host : HostConfig) (outcome : ProbeOutcome)
    (now : Int) : Status :=
  if (ping_result host outcome now).is_online then Status.online
  else Status.offline

/-- Monitor::check_host (oxmon-core monitor.rs).  `fails host_id`
models a persistence failure (store unavailable) for this host's
writes: every db call returns Err, so the first `?` propagates it and
no write lands.  Returns the updated (db, status_map) together with the
per-host Result that the spawned task yields. -/
def check_host (fails : Int → Bool) (host_id : Int) (host : HostConfig)
    (outcome : ProbeOutcome) (now : Int) (db : Db) (status_map : StatusMap) :
    (Db × StatusMap) × Except String Unit :=
  match ping_host host outcome now with
  | .error e => ((db, status_map), .error e)
  | .ok result =>
    let new_status := if result.is_online then Status.online else Status.offline
    if fails host_id then
      ((db, status_map), .error "persistence failure")
    else
      let db1 :=
        if new_status = Status.online then
          set_first_inserted db host_id result.timestamp
        else db
      let prev_status := (statusMapGet status_map host_id).map (·.status)
      let db2 :=
        if prev_status = none ∨ prev_status ≠ some new_status then
          record_event db1 host_id new_status.toEventType now
        else db1
      let db3 := record_ping_result db2 host_id result.success_count
        result.total_count result.avg_latency_ms now
      let host_status : HostStatus :=
        { id := host_id, hostname := host.hostname,
          ip_address := host.ip_address, status := new_status,
          last_check := result.timestamp,
          success_count := result.success_count,
          total_count := result.total_count,
          avg_latency_ms := result.avg_latency_ms }
      ((db3, statusMapInsert status_map host_id host_status), .ok ())

/-- Monitor::check_all_hosts (oxmon-core monitor.rs): one check per
host; every per-host Result is discarded (`let _ = task.await`) and the
tick itself returns Ok(()). -/
def check_all_hosts (fails : Int → Bool) (outcomes : Int → ProbeOutcome)
    (now : Int) : List (Int × HostConfig) → Db × StatusMap →
    (Db × StatusMap) × Except String Unit
  | [], st => (st, .ok ())
  | (host_id, host) :: rest, st =>
    let r := check_host fails host_id host (outcomes host_id) now st.1 st.2
    check_all_hosts fails outcomes now rest r.1

/-- The upsert-and-bootstrap loop of Monitor::new over an explicit host
list: upsert each host; record Offline for a newly created host and
Unknown for an existing one; collect (id, config). -/
def upsertAll (db : Db) (now : Int) :
    List HostConfig → Db × List (Int × HostConfig)
  | [] => (db, [])
  | h :: rest =>
    let r := upsert_host db h now
    let db2 := record_event r.2.2 r.1
      (if r.2.1 then EventType.offline else EventType.unknown) now
    let rec_rest := upsertAll db2 now rest
    (rec_rest.1, (r.1, h) :: rec_rest.2)

/-- The reconciliation block of Monitor::new (oxmon-core monitor.rs):
if the most recent session is still open the prior run did not shut
down cleanly; close it as "crashed" at the last ping timestamp, or as
"unknown" at its own started_at when no ping was ever recorded. -/
def reconcile_last_session (db : Db) : Db :=
  match get_last_session db with
  | some last_session =>
    if last_session.stopped_at = none then
      match get_last_ping_timestamp db with
      | some last_ping => close_session db last_session.id last_ping "crashed"
      | none =>
        close_session db last_session.id last_session.started_at "unknown"
    else db
  | none => db

/-- Monitor::new (oxmon-core monitor.rs): reconcile the previous
session, create a new session, resolve the host set (upsert the
explicit list, or load all hosts from the database and record Unknown
for each), and initialize the status map with Offline defaults. -/
def monitor_new (db : Db) (hosts : List HostConfig) (now : Int) : Monitor :=
  let db1 := reconcile_last_session db
  let created := create_session db1 now
  let resolved :=
    if hosts.isEmpty then
      let existing := get_hosts created.1
      (existing.foldl (fun d p => record_event d p.1 EventType.unknown now)
        created.1, existing)
    else
      upsertAll created.1 now hosts
  let status_map : StatusMap := resolved.2.map (fun p =>
    (p.1, { id := p.1, hostname := p.2.hostname,
            ip_address := p.2.ip_address, status := Status.offline,
            last_check := now, success_count := 0, total_count := 0,
            avg_latency_ms := none }))
  { db := resolved.1, hosts := resolved.2, status_map := status_map,
    session_id := created.2 }

/-- Monitor::shutdown (oxmon-core monitor.rs): closes the current
session with stopped_at = now and the literal shutdown_type string that
the source passes. -/
def shutdown (m : Monitor) (now : Int) : Db :=
  close_session m.db m.session_id now "graceful"

/-- Timeline representation for a host (oxmon-common `HostTimeline`). -/
structure HostTimeline where
  id : Int
  hostname : String
  ip_address : String
  current_status : Status
  buckets : List TimelineBucketState
  bucket_duration_secs : Nat
  start_time : Int
  end_time : Int

/-- Monitor::get_timelines (oxmon-core monitor.rs).  The bucket width
(duration_hours * 3600) / num_buckets as u32 is an unguarded u32
division (operands wrap mod 2^32); a zero divisor reaches the
division-by-zero panic, modelled as none. -/
def get_timelines (m : Monitor) (duration_hours num_buckets : Nat)
    (now : Int) : Option (List HostTimeline) :=
  let end_time := now
  let start_time := end_time - (duration_hours : Int) * 3600
  if num_buckets % 2 ^ 32 = 0 then none
  else
    let bucket_duration_secs :=
      duration_hours * 3600 % 2 ^ 32 / (num_buckets % 2 ^ 32)
    m.hosts.mapM (fun p =>
      (get_host_timeline now m.db p.1 start_time end_time num_buckets).map
        (fun buckets =>
          let current_status :=
            ((statusMapGet m.status_map p.1).map (·.status)).getD
              Status.offline
          { id := p.1, hostname := p.2.hostname,
            ip_address := p.2.ip_address, current_status := current_status,
            buckets := buckets, bucket_duration_secs := bucket_duration_secs,
            start_time := start_time, end_time := end_time }))

/-! Helper lemmas about the bucket-state computation. -/

/-- A session satisfying the overlap inequalities makes server_running
true. -/
lemma server_running_of_overlap (now : Int) (sessions : List ServerSession)
    (bs be : Int)
    (h : ∃ ss ∈ sessions, ss.started_at < be ∧ bs < ss.stopped_at.getD now) :
    server_running now sessions bs be = true := by
  obtain ⟨ss, hmem, h1, h2⟩ := h
  unfold server_running session_overlaps
  rw [List.any_eq_true]
  refine ⟨ss, hmem, ?_⟩
  simp only [Bool.and_eq_true, decide_eq_true_eq]
  exact ⟨h1, h2⟩

/-- When no session satisfies the overlap inequalities, server_running
is false. -/
lemma server_running_eq_false (now : Int) (sessions : List ServerSession)
    (bs be : Int)
    (h : ∀ ss ∈ sessions, ¬(ss.started_at < be ∧ bs < ss.stopped_at.getD now)) :
    server_running now sessions bs be = false := by
  unfold server_running session_overlaps
  rw [List.any_eq_false]
  intro ss hmem
  simp only [Bool.and_eq_true, decide_eq_true_eq]
  exact h ss hmem

/-- A window containing no event timestamps has an empty
events_in_bucket list. -/
lemma events_in_bucket_eq_nil (events : List HostEvent) (bs be : Int)
    (h : ∀ ev ∈ events, ¬(bs ≤ ev.timestamp ∧ ev.timestamp < be)) :
    events_in_bucket events bs be = [] := by
  unfold events_in_bucket
  rw [List.filter_eq_nil_iff]
  intro ev hmem
  simp only [Bool.and_eq_true, decide_eq_true_eq, not_and]
  intro h1 h2
  exact h ev hmem ⟨h1, h2⟩

/-- Any Offline event inside the window forces the Offline state as
soon as the server was running. -/
lemma determine_bucket_state_offline (now : Int) (events : List HostEvent)
    (sessions : List ServerSession) (bs be : Int)
    (hrun : ∃ ss ∈ sessions, ss.started_at < be ∧ bs < ss.stopped_at.getD now)
    (hoff : ∃ ev ∈ events, ev.event_type = EventType.offline ∧
      bs ≤ ev.timestamp ∧ ev.timestamp < be) :
    determine_bucket_state now events sessions bs be =
      TimelineBucketState.offline := by
  obtain ⟨ev, hmem, hty, h1, h2⟩ := hoff
  have hany : (events_in_bucket events bs be).any
      (fun e => e.event_type == EventType.offline) = true := by
    rw [List.any_eq_true]
    refine ⟨ev, ?_, by simp [hty]⟩
    unfold events_in_bucket
    rw [List.mem_filter]
    exact ⟨hmem, by simp only [Bool.and_eq_true, decide_eq_true_eq]; exact ⟨h1, h2⟩⟩
  unfold determine_bucket_state
  rw [server_running_of_overlap now sessions bs be hrun]
  simp [hany]

/-- Without an overlapping session the state is NoData, whatever the
events are. -/
lemma determine_bucket_state_no_session (now : Int) (events : List HostEvent)
    (sessions : List ServerSession) (bs be : Int)
    (h : ∀ ss ∈ sessions, ¬(ss.started_at < be ∧ bs < ss.stopped_at.getD now)) :
    determine_bucket_state now events sessions bs be =
      TimelineBucketState.noData := by
  unfold determine_bucket_state
  rw [server_running_eq_false now sessions bs be h]
  simp

/-- With an overlapping session and no event in the window, the state
is inherited from the most recent event before the window. -/
lemma determine_bucket_state_inherit (now : Int) (events : List HostEvent)
    (sessions : List ServerSession) (bs be : Int)
    (hrun : ∃ ss ∈ sessions, ss.started_at < be ∧ bs < ss.stopped_at.getD now)
    (hempty : ∀ ev ∈ events, ¬(bs ≤ ev.timestamp ∧ ev.timestamp < be)) :
    determine_bucket_state now events sessions bs be =
      inherited_state (event_before_bucket events bs) := by
  unfold determine_bucket_state
  rw [server_running_of_overlap now sessions bs be hrun,
    events_in_bucket_eq_nil events bs be hempty]
  simp

/-- The event found by event_before_bucket is an event of the list with
timestamp strictly before the window start. -/
lemma event_before_bucket_mem (events : List HostEvent) (t : Int)
    (ev : HostEvent) (h : event_before_bucket events t = some ev) :
    ev ∈ events ∧ ev.timestamp < t := by
  unfold event_before_bucket at h
  have hm := List.mem_of_find?_eq_some h
  have hp := List.find?_some h
  rw [List.mem_reverse] at hm
  simp only [decide_eq_true_eq] at hp
  exact ⟨hm, hp⟩

/-- When event_before_bucket finds nothing, no event of the list is
strictly before the window start. -/
lemma event_before_bucket_none (events : List HostEvent) (t : Int)
    (h : event_before_bucket events t = none) :
    ∀ ev ∈ events, ¬ ev.timestamp < t := by
  intro ev hmem
  unfold event_before_bucket at h
  have := List.find?_eq_none.mp h ev (List.mem_reverse.mpr hmem)
  simpa using this

/-- On a list sorted by ascending timestamp, event_before_bucket finds
an event of maximal timestamp among those before the window start. -/
lemma event_before_bucket_max (t : Int) :
    ∀ events : List HostEvent, events.Pairwise tsLe →
      ∀ ev, event_before_bucket events t = some ev →
        ∀ ev2 ∈ events, ev2.timestamp < t → ev2.timestamp ≤ ev.timestamp := by
  intro events
  induction events using List.reverseRecOn with
  | nil => intro _ ev h; simp [event_before_bucket] at h
  | append_singleton l a ih =>
    intro hsort ev h ev2 hmem h2
    rw [event_before_bucket, List.reverse_append, List.reverse_singleton,
      List.singleton_append] at h
    by_cases hpa : a.timestamp < t
    · rw [List.find?_cons_of_pos _ (by simpa using hpa)] at h
      have hev : a = ev := by injection h
      rcases List.mem_append.mp hmem with h3 | h3
      · have := (List.pairwise_append.mp hsort).2.2 ev2 h3 a (by simp)
        simpa [hev] using this
      · simp only [List.mem_singleton] at h3
        simp [h3, hev]
    · rw [List.find?_cons_of_neg _ (by simpa using hpa)] at h
      rcases List.mem_append.mp hmem with h3 | h3
      · exact ih (List.pairwise_append.mp hsort).1 ev h ev2 h3 h2
      · simp only [List.mem_singleton] at h3
        exact absurd (h3 ▸ h2) hpa

/-- Fetched events come out of get_host_events_in_range sorted by
ascending timestamp. -/
lemma get_host_events_in_range_sorted (db : Db) (host_id : Int)
    (start_time end_time : Int) :
    (get_host_events_in_range db host_id start_time end_time).Pairwise tsLe :=
  List.sorted_insertionSort tsLe _

/-- The i-th bucket returned by get_host_timeline is the
determine_bucket_state of the i-th window over the fetched events and
sessions. -/
lemma get_host_timeline_bucket (now : Int) (db : Db) (host_id : Int)
    (start_time end_time : Int) (n i : Nat) (hi : i < n) :
    ∃ l, get_host_timeline now db host_id start_time end_time n = some l ∧
      l[i]? = some (determine_bucket_state now
        (get_host_events_in_range db host_id start_time end_time)
        (get_sessions_in_range db start_time end_time)
        (bucket_window_start start_time end_time n i)
        (bucket_window_end start_time end_time n i)) := by
  have hn : n ≠ 0 := by omega
  refine ⟨_, by rw [get_host_timeline, if_neg hn], ?_⟩
  have hr : (List.range n)[i]? = some i := by
    simp [List.getElem?_range, hi]
  rw [List.getElem?_map, hr]
  rfl

/-! Claim theorems for the timeline-bucket reconstruction. -/

/-- C1: for every timeline bucket whose half-open window overlaps at
least one fetched server session (interval [started_at, stopped_at or
now)), if any fetched event of kind Offline has its timestamp inside
the window, then the bucket state computed by determine_bucket_state
and returned at position i of get_host_timeline is Offline, regardless
of any Online or Unknown events also inside the window. -/
theorem timeline_bucket_offline_priority (now : Int) (db : Db)
    (host_id start_time end_time : Int) (n i : Nat) (hi : i < n)
    (hrun : ∃ ss ∈ get_sessions_in_range db start_time end_time,
      ss.started_at < bucket_window_end start_time end_time n i ∧
        bucket_window_start start_time end_time n i < ss.stopped_at.getD now)
    (hoff : ∃ ev ∈ get_host_events_in_range db host_id start_time end_time,
      ev.event_type = EventType.offline ∧
        bucket_window_start start_time end_time n i ≤ ev.timestamp ∧
        ev.timestamp < bucket_window_end start_time end_time n i) :
    ∃ l, get_host_timeline now db host_id start_time end_time n = some l ∧
      l[i]? = some TimelineBucketState.offline := by
  obtain ⟨l, hl, hget⟩ :=
    get_host_timeline_bucket now db host_id start_time end_time n i hi
  refine ⟨l, hl, ?_⟩
  rw [hget, determine_bucket_state_offline _ _ _ _ _ hrun hoff]

/-- Witness for C1: a database with one open session and events
online at 10, offline at 50 and unknown at 60; the first of six
100-second buckets over [0, 600] is Offline. -/
theorem timeline_bucket_offline_priority_witness :
    ∃ l, get_host_timeline 1000
        { hosts := [⟨1, "hostA", "10.0.0.1", 0, none⟩],
          host_events := [⟨1, 1, EventType.online, 10⟩,
            ⟨2, 1, EventType.offline, 50⟩, ⟨3, 1, EventType.unknown, 60⟩],
          ping_results := [], server_sessions := [⟨1, 0, none, none⟩] }
        1 0 600 6 = some l ∧
      l[0]? = some TimelineBucketState.offline :=
  timeline_bucket_offline_priority 1000 _ 1 0 600 6 0 (by decide)
    (by decide) (by decide)

/-- C2: a bucket whose window overlaps no fetched session interval
[started_at, stopped_at or now) is NoData, regardless of the events in
the database — no event hypothesis is needed. -/
theorem timeline_bucket_nodata_without_session (now : Int) (db : Db)
    (host_id start_time end_time : Int) (n i : Nat) (hi : i < n)
    (hnr : ∀ ss ∈ get_sessions_in_range db start_time end_time,
      ¬(ss.started_at < bucket_window_end start_time end_time n i ∧
        bucket_window_start start_time end_time n i < ss.stopped_at.getD now)) :
    ∃ l, get_host_timeline now db host_id start_time end_time n = some l ∧
      l[i]? = some TimelineBucketState.noData := by
  obtain ⟨l, hl, hget⟩ :=
    get_host_timeline_bucket now db host_id start_time end_time n i hi
  refine ⟨l, hl, ?_⟩
  rw [hget, determine_bucket_state_no_session _ _ _ _ _ hnr]

/-- Witness for C2: the only session stops at 300, so the last of six
buckets over [0, 600] (window [500, 600)) is NoData even though an
online event sits at 550 inside that window. -/
theorem timeline_bucket_nodata_without_session_witness :
    ∃ l, get_host_timeline 1000
        { hosts := [⟨1, "hostA", "10.0.0.1", 0, none⟩],
          host_events := [⟨1, 1, EventType.online, 550⟩],
          ping_results := [],
          server_sessions := [⟨1, 0, some 300, some "crashed"⟩] }
        1 0 600 6 = some l ∧
      l[5]? = some TimelineBucketState.noData :=
  timeline_bucket_nodata_without_session 1000 _ 1 0 600 6 5 (by decide)
    (by decide)

/-- C3: a bucket that overlaps a session and contains zero fetched
events in its window takes the state implied by the event found by
event_before_bucket — which, the fetched list being sorted, is an event
of maximal timestamp among those strictly before the window start —
with Online mapping to Online, Offline to Offline and Unknown to
NoData; and when no fetched event lies strictly before the window
start, the state is NoData. -/
theorem timeline_bucket_inherits_prior_event (now : Int) (db : Db)
    (host_id start_time end_time : Int) (n i : Nat) (hi : i < n)
    (hrun : ∃ ss ∈ get_sessions_in_range db start_time end_time,
      ss.started_at < bucket_window_end start_time end_time n i ∧
        bucket_window_start start_time end_time n i < ss.stopped_at.getD now)
    (hempty : ∀ ev ∈ get_host_events_in_range db host_id start_time end_time,
      ¬(bucket_window_start start_time end_time n i ≤ ev.timestamp ∧
        ev.timestamp < bucket_window_end start_time end_time n i)) :
    ∃ l, get_host_timeline now db host_id start_time end_time n = some l ∧
      (∀ ev, event_before_bucket
          (get_host_events_in_range db host_id start_time end_time)
          (bucket_window_start start_time end_time n i) = some ev →
        ev ∈ get_host_events_in_range db host_id start_time end_time ∧
        ev.timestamp < bucket_window_start start_time end_time n i ∧
        (∀ ev2 ∈ get_host_events_in_range db host_id start_time end_time,
          ev2.timestamp < bucket_window_start start_time end_time n i →
            ev2.timestamp ≤ ev.timestamp) ∧
        l[i]? = some (match ev.event_type with
          | EventType.online => TimelineBucketState.online
          | EventType.offline => TimelineBucketState.offline
          | EventType.unknown => TimelineBucketState.noData)) ∧
      (event_before_bucket
          (get_host_events_in_range db host_id start_time end_time)
          (bucket_window_start start_time end_time n i) = none →
        (∀ ev ∈ get_host_events_in_range db host_id start_time end_time,
          ¬ ev.timestamp < bucket_window_start start_time end_time n i) ∧
        l[i]? = some TimelineBucketState.noData) := by
  obtain ⟨l, hl, hget⟩ :=
    get_host_timeline_bucket now db host_id start_time end_time n i hi
  have hdet := determine_bucket_state_inherit now
    (get_host_events_in_range db host_id start_time end_time)
    (get_sessions_in_range db start_time end_time)
    (bucket_window_start start_time end_time n i)
    (bucket_window_end start_time end_time n i) hrun hempty
  refine ⟨l, hl, ?_, ?_⟩
  · intro ev hfound
    obtain ⟨hm, hlt⟩ := event_before_bucket_mem _ _ _ hfound
    refine ⟨hm, hlt, ?_, ?_⟩
    · exact event_before_bucket_max _ _
        (get_host_events_in_range_sorted db host_id start_time end_time)
        ev hfound
    · rw [hget, hdet, hfound]
      cases hty : ev.event_type <;> simp [inherited_state, hty]
  · intro hnone
    refine ⟨event_before_bucket_none _ _ hnone, ?_⟩
    rw [hget, hdet, hnone]
    rfl

/-- Witness for C3: one offline event at 50, session open; the last of
six buckets over [0, 600] (window [500, 600)) contains no event and
inherits Offline from the event at 50. -/
theorem timeline_bucket_inherits_prior_event_witness :
    ∃ l, get_host_timeline 1000
        { hosts := [⟨1, "hostA", "10.0.0.1", 0, none⟩],
          host_events := [⟨1, 1, EventType.offline, 50⟩],
          ping_results := [], server_sessions := [⟨1, 0, none, none⟩] }
        1 0 600 6 = some l ∧
      (∀ ev, event_before_bucket
          (get_host_events_in_range
            { hosts := [⟨1, "hostA", "10.0.0.1", 0, none⟩],
              host_events := [⟨1, 1, EventType.offline, 50⟩],
              ping_results := [], server_sessions := [⟨1, 0, none, none⟩] }
            1 0 600)
          (bucket_window_start 0 600 6 5) = some ev →
        ev ∈ get_host_events_in_range
            { hosts := [⟨1, "hostA", "10.0.0.1", 0, none⟩],
              host_events := [⟨1, 1, EventType.offline, 50⟩],
              ping_results := [], server_sessions := [⟨1, 0, none, none⟩] }
            1 0 600 ∧
        ev.timestamp < bucket_window_start 0 600 6 5 ∧
        (∀ ev2 ∈ get_host_events_in_range
            { hosts := [⟨1, "hostA", "10.0.0.1", 0, none⟩],
              host_events := [⟨1, 1, EventType.offline, 50⟩],
              ping_results := [], server_sessions := [⟨1, 0, none, none⟩] }
            1 0 600,
          ev2.timestamp < bucket_window_start 0 600 6 5 →
            ev2.timestamp ≤ ev.timestamp) ∧
        l[5]? = some (match ev.event_type with
          | EventType.online => TimelineBucketState.online
          | EventType.offline => TimelineBucketState.offline
          | EventType.unknown => TimelineBucketState.noData)) ∧
      (event_before_bucket
          (get_host_events_in_range
            { hosts := [⟨1, "hostA", "10.0.0.1", 0, none⟩],
              host_events := [⟨1, 1, EventType.offline, 50⟩],
              ping_results := [], server_sessions := [⟨1, 0, none, none⟩] }
            1 0 600)
          (bucket_window_start 0 600 6 5) = none →
        (∀ ev ∈ get_host_events_in_range
            { hosts := [⟨1, "hostA", "10.0.0.1", 0, none⟩],
              host_events := [⟨1, 1, EventType.offline, 50⟩],
              ping_results := [], server_sessions := [⟨1, 0, none, none⟩] }
            1 0 600,
          ¬ ev.timestamp < bucket_window_start 0 600 6 5) ∧
        l[5]? = some TimelineBucketState.noData) :=
  timeline_bucket_inherits_prior_event 1000 _ 1 0 600 6 5 (by decide)
    (by decide) (by decide)

/-- C10: get_host_timeline divides the range length by num_buckets
without a guard, so num_buckets = 0 reaches the division-by-zero
branch (modelled none); for num_buckets ≥ 1 the call succeeds and
returns exactly num_buckets buckets; and the caller get_timelines
performs the same unguarded division, also reaching division by zero
at num_buckets = 0. -/
theorem get_host_timeline_bucket_count (now : Int) (db : Db)
    (host_id start_time end_time : Int) (m : Monitor)
    (duration_hours n : Nat) (hn : 1 ≤ n) :
    get_host_timeline now db host_id start_time end_time 0 = none ∧
    (∃ l, get_host_timeline now db host_id start_time end_time n = some l ∧
      l.length = n) ∧
    get_timelines m duration_hours 0 now = none := by
  refine ⟨rfl, ?_, ?_⟩
  · rw [get_host_timeline, if_neg (by omega : n ≠ 0)]
    exact ⟨_, rfl, by rw [List.length_map, List.length_range]⟩
  · rw [get_timelines, if_pos (by simp)]

/-- Witness for C10 at num_buckets 3 on an empty database and an empty
monitor. -/
theorem get_host_timeline_bucket_count_witness :
    get_host_timeline 0 Db.empty 1 0 600 0 = none ∧
    (∃ l, get_host_timeline 0 Db.empty 1 0 600 3 = some l ∧
      l.length = 3) ∧
    get_timelines ⟨Db.empty, [], [], 1⟩ 24 0 0 = none :=
  get_host_timeline_bucket_count 0 Db.empty 1 0 600 ⟨Db.empty, [], [], 1⟩
    24 3 (by decide)

/-! Helper lemmas about which tables each operation touches. -/

/-- record_event leaves the server_sessions table unchanged. -/
lemma record_event_server_sessions (db : Db) (h : Int) (ty : EventType)
    (now : Int) : (record_event db h ty now).server_sessions =
      db.server_sessions := rfl

/-- upsert_host leaves the server_sessions table unchanged. -/
lemma upsert_host_server_sessions (db : Db) (c : HostConfig) (now : Int) :
    (upsert_host db c now).2.2.server_sessions = db.server_sessions := by
  unfold upsert_host
  cases db.hosts.find? (fun h =>
      h.hostname == c.hostname && h.ip_address == c.ip_address) <;> rfl

/-- The whole upsert-and-bootstrap loop leaves server_sessions
unchanged. -/
lemma upsertAll_server_sessions (now : Int) :
    ∀ (hosts : List HostConfig) (db : Db),
      (upsertAll db now hosts).1.server_sessions = db.server_sessions := by
  intro hosts
  induction hosts with
  | nil => intro db; rfl
  | cons h rest ih =>
    intro db
    show (upsertAll _ now rest).1.server_sessions = _
    rw [ih, record_event_server_sessions, upsert_host_server_sessions]

/-- Recording Unknown events for the loaded hosts leaves
server_sessions unchanged. -/
lemma foldl_record_unknown_server_sessions (now : Int) :
    ∀ (l : List (Int × HostConfig)) (db : Db),
      (l.foldl (fun d p => record_event d p.1 EventType.unknown now)
        db).server_sessions = db.server_sessions := by
  intro l
  induction l with
  | nil => intro db; rfl
  | cons p rest ih =>
    intro db
    rw [List.foldl_cons, ih, record_event_server_sessions]

/-- The host-resolution phase of Monitor::new never touches the
server_sessions table: the sessions of the final database are exactly
those after reconciliation and creation of the new session. -/
lemma monitor_new_db_server_sessions (db : Db) (hosts : List HostConfig)
    (now : Int) :
    (monitor_new db hosts now).db.server_sessions =
      (create_session (reconcile_last_session db) now).1.server_sessions := by
  unfold monitor_new
  by_cases hh : hosts.isEmpty
  · simp only [hh, if_pos]
    exact foldl_record_unknown_server_sessions now _ _
  · simp only [hh, if_neg, Bool.false_eq_true, not_false_iff]
    exact upsertAll_server_sessions now hosts _

/-- C4: starting the Monitor over a store whose single prior session is
still open closes that session — with stopped_at = the most recent ping
timestamp and shutdown_type "crashed" when a ping exists, and with
stopped_at = the session's own started_at and shutdown_type "unknown"
when no ping was ever recorded — and creates a new open session, so
get_all_sessions shows exactly two sessions: the first closed and the
second with stopped_at = none. -/
theorem monitor_new_crash_recovery (hostsTbl : List Host)
    (events : List HostEvent) (pings : List PingRow) (s : ServerSession)
    (hosts : List HostConfig) (now : Int) (hopen : s.stopped_at = none) :
    (pings = [] →
      get_all_sessions (monitor_new ⟨hostsTbl, events, pings, [s]⟩ hosts now).db
        = [{ s with stopped_at := some s.started_at,
                    shutdown_type := some "unknown" },
           { id := max 0 s.id + 1, started_at := now, stopped_at := none,
             shutdown_type := none }]) ∧
    (pings ≠ [] → ∃ t,
      get_last_ping_timestamp ⟨hostsTbl, events, pings, [s]⟩ = some t ∧
      (∀ p ∈ pings, p.timestamp ≤ t) ∧
      get_all_sessions (monitor_new ⟨hostsTbl, events, pings, [s]⟩ hosts now).db
        = [{ s with stopped_at := some t, shutdown_type := some "crashed" },
           { id := max 0 s.id + 1, started_at := now, stopped_at := none,
             shutdown_type := none }]) := by
  have hgls : get_last_session ⟨hostsTbl, events, pings, [s]⟩ = some s := rfl
  constructor
  · intro hp
    have hlpt : get_last_ping_timestamp ⟨hostsTbl, events, pings, [s]⟩ = none := by
      subst hp; rfl
    rw [get_all_sessions, monitor_new_db_server_sessions]
    rw [reconcile_last_session, hgls]
    simp only [hopen, if_pos, hlpt]
    rw [close_session, create_session]
    simp [nextSessionId]
  · intro hp
    obtain ⟨t, ht⟩ : ∃ t,
        get_last_ping_timestamp ⟨hostsTbl, events, pings, [s]⟩ = some t := by
      rw [get_last_ping_timestamp]
      cases hm : (pings.map (·.timestamp)).max? with
      | none =>
        exact absurd (List.map_eq_nil_iff.mp (List.max?_eq_none_iff.mp hm)) hp
      | some t => exact ⟨t, rfl⟩
    refine ⟨t, ht, ?_, ?_⟩
    · intro p hmem
      have hle := (List.max?_le_iff (fun a b c => max_le_iff) ht).mp (le_refl t)
      exact hle p.timestamp (List.mem_map_of_mem _ hmem)
    · rw [get_all_sessions, monitor_new_db_server_sessions]
      rw [reconcile_last_session, hgls]
      simp only [hopen, if_pos, ht]
      rw [close_session, create_session]
      simp [nextSessionId]

/-- Witness for C4: a single open session started at 100 and one ping
at 150; restarting at 200 yields the session closed as "crashed" at 150
plus a fresh open session (and the no-ping implication holds
vacuously). -/
theorem monitor_new_crash_recovery_witness :
    (([⟨1, 1, 3, 3, none, 150⟩] : List PingRow) = [] →
      get_all_sessions (monitor_new
        ⟨[], [], [⟨1, 1, 3, 3, none, 150⟩], [⟨1, 100, none, none⟩]⟩ [] 200).db
        = [{ id := 1, started_at := 100, stopped_at := some 100,
             shutdown_type := some "unknown" },
           { id := max 0 1 + 1, started_at := 200, stopped_at := none,
             shutdown_type := none }]) ∧
    (([⟨1, 1, 3, 3, none, 150⟩] : List PingRow) ≠ [] → ∃ t,
      get_last_ping_timestamp
        ⟨[], [], [⟨1, 1, 3, 3, none, 150⟩], [⟨1, 100, none, none⟩]⟩ = some t ∧
      (∀ p ∈ ([⟨1, 1, 3, 3, none, 150⟩] : List PingRow), p.timestamp ≤ t) ∧
      get_all_sessions (monitor_new
        ⟨[], [], [⟨1, 1, 3, 3, none, 150⟩], [⟨1, 100, none, none⟩]⟩ [] 200).db
        = [{ id := 1, started_at := 100, stopped_at := some t,
             shutdown_type := some "crashed" },
           { id := max 0 1 + 1, started_at := 200, stopped_at := none,
             shutdown_type := none }]) :=
  monitor_new_crash_recovery [] [] [⟨1, 1, 3, 3, none, 150⟩]
    ⟨1, 100, none, none⟩ [] 200 rfl

/-- C6 fails on the code: Monitor::shutdown closes the open session
with the literal shutdown_type "graceful", not "clean", so the stored
value falls outside the set {"clean", "crashed", "unknown"} documented
on ServerSession in oxmon-common.  This theorem evaluates the code at
the failing input: a monitor whose open session has id 1, shut down at
time 42. -/
theorem shutdown_stores_graceful :
    (get_all_sessions (shutdown
        ⟨⟨[], [], [], [⟨1, 7, none, none⟩]⟩, [], [], 1⟩ 42)).map
      (·.shutdown_type) = [some "graceful"] ∧
    some ("graceful" : String) ≠ some "clean" ∧
    ("graceful" : String) ∉ ["clean", "crashed", "unknown"] :=
  ⟨rfl, by decide, by decide⟩

/-! Helper lemmas about check_host and the status map. -/

/-- The host_events table is untouched by set_first_inserted. -/
lemma set_first_inserted_host_events (db : Db) (h t : Int) :
    (set_first_inserted db h t).host_events = db.host_events := rfl

/-- The host_events table is untouched by record_ping_result. -/
lemma record_ping_result_host_events (db : Db) (h : Int) (sc tc : Nat)
    (al : Option Rat) (now : Int) :
    (record_ping_result db h sc tc al now).host_events = db.host_events := rfl

/-- record_event appends exactly one row to host_events. -/
lemma record_event_host_events (db : Db) (h : Int) (ty : EventType)
    (now : Int) : (record_event db h ty now).host_events =
      db.host_events ++ [⟨nextEventId db, h, ty, now⟩] := rfl

/-- Replacing the entry of a present key makes find? return the
replacement. -/
lemma find?_map_replace (h : Int) (hs : HostStatus) :
    ∀ map : StatusMap, map.any (fun p => p.1 == h) = true →
      (map.map (fun p => if p.1 == h then (h, hs) else p)).find?
        (fun p => p.1 == h) = some (h, hs) := by
  intro map
  induction map with
  | nil => intro hmem; simp at hmem
  | cons q rest ih =>
    intro hmem
    by_cases hq : q.1 == h
    · have hqe : q.1 = h := by simpa using hq
      simp [List.find?_cons, hqe]
    · have hqf : (q.1 == h) = false := by simpa using hq
      rw [List.map_cons, if_neg (by simp [hqf]),
        List.find?_cons_of_neg _ (by simp [hqf])]
      rw [List.any_cons, hqf, Bool.false_or] at hmem
      exact ih hmem

/-- find? misses every entry of a map whose keys all differ from h. -/
lemma find?_none_of_not_any (h : Int) :
    ∀ map : StatusMap, map.any (fun p => p.1 == h) = false →
      map.find? (fun p => p.1 == h) = none := by
  intro map
  induction map with
  | nil => intro _; rfl
  | cons q rest ih =>
    intro hmem
    rw [List.any_cons] at hmem
    have hq : (q.1 == h) = false := by
      cases hqv : q.1 == h
      · rfl
      · rw [hqv] at hmem; simp at hmem
    rw [hq, Bool.false_or] at hmem
    rw [List.find?_cons_of_neg _ (by simp [hq])]
    exact ih hmem

/-- Reading back the key just written by statusMapInsert yields the
written status. -/
lemma statusMapGet_insert_self (map : StatusMap) (h : Int)
    (hs : HostStatus) :
    statusMapGet (statusMapInsert map h hs) h = some hs := by
  unfold statusMapInsert statusMapGet
  by_cases hmem : map.any (fun p => p.1 == h)
  · rw [if_pos hmem, find?_map_replace h hs map hmem]
    rfl
  · have hf : map.any (fun p => p.1 == h) = false := by
      cases hv : map.any (fun p => p.1 == h)
      · rfl
      · exact absurd hv hmem
    rw [if_neg hmem, List.find?_append, find?_none_of_not_any h map hf]
    simp

/-- The status map after a successful check_host holds the fresh
HostStatus built from the probe result. -/
lemma check_host_status_map (host_id : Int) (host : HostConfig)
    (o : ProbeOutcome) (t : Int) (db0 : Db) (map0 : StatusMap) :
    (check_host (fun _ => false) host_id host o t db0 map0).1.2 =
      statusMapInsert map0 host_id
        { id := host_id, hostname := host.hostname,
          ip_address := host.ip_address,
          status := tick_classification host o t,
          last_check := (ping_result host o t).timestamp,
          success_count := (ping_result host o t).success_count,
          total_count := (ping_result host o t).total_count,
          avg_latency_ms := (ping_result host o t).avg_latency_ms } := rfl

/-- check_host appends a host event exactly when the host has no cached
status yet or the new classification differs from the cached one
(monitor.rs: prev_status.is_none() || prev_status != Some(new_status)). -/
lemma check_host_event_count (host_id : Int) (host : HostConfig)
    (o : ProbeOutcome) (t : Int) (db0 : Db) (map0 : StatusMap) :
    (check_host (fun _ => false) host_id host o t db0
        map0).1.1.host_events.length =
      db0.host_events.length +
        (if (statusMapGet map0 host_id).map (·.status) = none ∨
            (statusMapGet map0 host_id).map (·.status)
              ≠ some (tick_classification host o t) then 1 else 0) := by
  have hred : (check_host (fun _ => false) host_id host o t db0
      map0).1.1.host_events =
      (if (statusMapGet map0 host_id).map (·.status) = none ∨
          (statusMapGet map0 host_id).map (·.status)
            ≠ some (tick_classification host o t) then
        record_event
          (if tick_classification host o t = Status.online then
            set_first_inserted db0 host_id (ping_result host o t).timestamp
          else db0)
          host_id (tick_classification host o t).toEventType t
      else
        (if tick_classification host o t = Status.online then
          set_first_inserted db0 host_id (ping_result host o t).timestamp
        else db0)).host_events := rfl
  have hdb1 : (if tick_classification host o t = Status.online then
      set_first_inserted db0 host_id (ping_result host o t).timestamp
      else db0).host_events = db0.host_events := by
    split_ifs <;> rfl
  rw [hred]
  by_cases hc : (statusMapGet map0 host_id).map (·.status) = none ∨
      (statusMapGet map0 host_id).map (·.status)
        ≠ some (tick_classification host o t)
  · rw [if_pos hc, if_pos hc, record_event_host_events,
      List.length_append, hdb1]
    rfl
  · rw [if_neg hc, if_neg hc, hdb1]
    rfl

/-- The classification of a successful probe is Online. -/
lemma tick_classification_success (host : HostConfig) (l : Rat) (t : Int) :
    tick_classification host (ProbeOutcome.success l) t = Status.online := rfl

/-- The classification of a non-success probe outcome is Offline. -/
lemma tick_classification_not_success (host : HostConfig) (o : ProbeOutcome)
    (t : Int) (h : ∀ x, o ≠ ProbeOutcome.success x) :
    tick_classification host o t = Status.offline := by
  cases o with
  | success l => exact absurd rfl (h l)
  | failure => rfl
  | timeout => rfl

/-- The database-and-map state after one check of a host in which every
persistence write succeeds (the first component of check_host with an
all-false failure oracle). -/
def tick_step (host_id : Int) (host : HostConfig) (o : ProbeOutcome)
    (t : Int) (st : Db × StatusMap) : Db × StatusMap :=
  (check_host (fun _ => false) host_id host o t st.1 st.2).1

/-- C7: on each tick, check_host appends a HostEvent exactly when this
is the first observation for the host (no cached status) or the new
classification differs from the previously cached status; consequently,
for a host whose cached status is Online, three consecutive tick
classifications Online, Offline, Online append exactly two new events,
not three. -/
theorem check_host_emits_on_change (db : Db) (map : StatusMap)
    (host_id : Int) (host : HostConfig) (a c : Rat) (r2 : ProbeOutcome)
    (now1 now2 now3 : Int) (hr2 : ∀ x, r2 ≠ ProbeOutcome.success x)
    (hprev : (statusMapGet map host_id).map (·.status) = some Status.online) :
    (∀ (db0 : Db) (map0 : StatusMap) (o : ProbeOutcome) (t : Int),
      (check_host (fun _ => false) host_id host o t db0
          map0).1.1.host_events.length =
        db0.host_events.length +
          (if (statusMapGet map0 host_id).map (·.status) = none ∨
              (statusMapGet map0 host_id).map (·.status)
                ≠ some (tick_classification host o t) then 1 else 0)) ∧
    (tick_step host_id host (ProbeOutcome.success c) now3
        (tick_step host_id host r2 now2
          (tick_step host_id host (ProbeOutcome.success a) now1
            (db, map)))).1.host_events.length =
      db.host_events.length + 2 := by
  refine ⟨fun db0 map0 o t => check_host_event_count host_id host o t db0
    map0, ?_⟩
  have hlen1 : (tick_step host_id host (ProbeOutcome.success a) now1
      (db, map)).1.host_events.length = db.host_events.length := by
    unfold tick_step
    rw [check_host_event_count, hprev, tick_classification_success]
    simp
  have hmap1 : (statusMapGet (tick_step host_id host
      (ProbeOutcome.success a) now1 (db, map)).2 host_id).map (·.status) =
      some Status.online := by
    unfold tick_step
    rw [check_host_status_map, statusMapGet_insert_self]
    rfl
  have hlen2 : (tick_step host_id host r2 now2
      (tick_step host_id host (ProbeOutcome.success a) now1
        (db, map))).1.host_events.length =
      (tick_step host_id host (ProbeOutcome.success a) now1
        (db, map)).1.host_events.length + 1 := by
    unfold tick_step at hmap1 ⊢
    rw [check_host_event_count, hmap1,
      tick_classification_not_success host r2 now2 hr2]
    simp
  have hmap2 : (statusMapGet (tick_step host_id host r2 now2
      (tick_step host_id host (ProbeOutcome.success a) now1
        (db, map))).2 host_id).map (·.status) = some Status.offline := by
    unfold tick_step
    rw [check_host_status_map, statusMapGet_insert_self]
    simp [tick_classification_not_success host r2 now2 hr2]
  have hlen3 : (tick_step host_id host (ProbeOutcome.success c) now3
      (tick_step host_id host r2 now2
        (tick_step host_id host (ProbeOutcome.success a) now1
          (db, map)))).1.host_events.length =
      (tick_step host_id host r2 now2
        (tick_step host_id host (ProbeOutcome.success a) now1
          (db, map))).1.host_events.length + 1 := by
    unfold tick_step at hmap2 ⊢
    rw [check_host_event_count, hmap2, tick_classification_success]
    simp
  rw [hlen3, hlen2, hlen1]

/-- Witness for C7: empty database, host 1 cached Online; probe
outcomes success, failure, success leave exactly two events. -/
theorem check_host_emits_on_change_witness :
    (∀ (db0 : Db) (map0 : StatusMap) (o : ProbeOutcome) (t : Int),
      (check_host (fun _ => false) 1 ⟨"hostA", "10.0.0.1"⟩ o t db0
          map0).1.1.host_events.length =
        db0.host_events.length +
          (if (statusMapGet map0 1).map (·.status) = none ∨
              (statusMapGet map0 1).map (·.status)
                ≠ some (tick_classification ⟨"hostA", "10.0.0.1"⟩ o t)
            then 1 else 0)) ∧
    (tick_step 1 ⟨"hostA", "10.0.0.1"⟩ (ProbeOutcome.success 2) 30
        (tick_step 1 ⟨"hostA", "10.0.0.1"⟩ ProbeOutcome.failure 20
          (tick_step 1 ⟨"hostA", "10.0.0.1"⟩ (ProbeOutcome.success 1) 10
            (Db.empty,
              [(1, ⟨1, "hostA", "10.0.0.1", Status.online, 0, 1, 1,
                none⟩)])))).1.host_events.length =
      Db.empty.host_events.length + 2 :=
  check_host_emits_on_change Db.empty
    [(1, ⟨1, "hostA", "10.0.0.1", Status.online, 0, 1, 1, none⟩)]
    1 ⟨"hostA", "10.0.0.1"⟩ 1 2 ProbeOutcome.failure 10 20 30
    (fun x h => by cases h) rfl

/-! Helper lemmas for failure isolation in a tick. -/

/-- A persistence failure for a host makes its check return the error
and leave the database and status map untouched. -/
lemma check_host_fail_state (fails : Int → Bool) (host_id : Int)
    (host : HostConfig) (o : ProbeOutcome) (t : Int) (db : Db)
    (map : StatusMap) (hf : fails host_id = true) :
    check_host fails host_id host o t db map =
      ((db, map), Except.error "persistence failure") := by
  simp [check_host, ping_host, hf]

/-- When the persistence oracle does not fail for a host, its check
behaves as with the all-false oracle. -/
lemma check_host_no_fail (fails : Int → Bool) (host_id : Int)
    (host : HostConfig) (o : ProbeOutcome) (t : Int) (db : Db)
    (map : StatusMap) (hf : fails host_id = false) :
    check_host fails host_id host o t db map =
      check_host (fun _ => false) host_id host o t db map := by
  simp [check_host, ping_host, hf]

/-- The tick always returns Ok: every per-host result is discarded. -/
lemma check_all_hosts_ok (fails : Int → Bool)
    (outcomes : Int → ProbeOutcome) (now : Int) :
    ∀ (hosts : List (Int × HostConfig)) (st : Db × StatusMap),
      (check_all_hosts fails outcomes now hosts st).2 = Except.ok () := by
  intro hosts
  induction hosts with
  | nil => intro st; rfl
  | cons p rest ih =>
    intro st
    obtain ⟨hid, h⟩ := p
    exact ih _

/-- A tick with failing hosts computes the same final state as a tick,
without failures, over only the non-failing hosts. -/
lemma check_all_hosts_skip_failing (fails : Int → Bool)
    (outcomes : Int → ProbeOutcome) (now : Int) :
    ∀ (hosts : List (Int × HostConfig)) (st : Db × StatusMap),
      (check_all_hosts fails outcomes now hosts st).1 =
        (check_all_hosts (fun _ => false) outcomes now
          (hosts.filter (fun p => !(fails p.1))) st).1 := by
  intro hosts
  induction hosts with
  | nil => intro st; rfl
  | cons p rest ih =>
    intro st
    obtain ⟨hid, h⟩ := p
    rw [List.filter_cons]
    cases hf : fails hid with
    | true =>
      show (check_all_hosts fails outcomes now rest
        (check_host fails hid h (outcomes hid) now st.1 st.2).1).1 = _
      rw [check_host_fail_state fails hid h (outcomes hid) now st.1 st.2 hf]
      simp only [hf, Bool.not_true, Bool.false_eq_true, if_neg,
        not_false_iff]
      exact ih st
    | false =>
      show (check_all_hosts fails outcomes now rest
        (check_host fails hid h (outcomes hid) now st.1 st.2).1).1 = _
      rw [check_host_no_fail fails hid h (outcomes hid) now st.1 st.2 hf]
      simp only [hf, Bool.not_false, if_pos]
      exact ih _

/-- C8: a probe timeout or failed ping is folded into an Offline
classification rather than surfaced as a Monitor error (ping_host
always returns Ok); a persistence failure during one host's check is
reported in that host's own result while leaving the shared state
untouched; the tick itself still returns Ok; and the final state of the
tick is the state obtained by checking exactly the non-failing hosts. -/
theorem probe_failure_folded_and_tick_succeeds (fails : Int → Bool)
    (outcomes : Int → ProbeOutcome) (now : Int) (host_id : Int)
    (host : HostConfig) (db : Db) (map : StatusMap)
    (hosts : List (Int × HostConfig)) (hfail : fails host_id = true) :
    (∀ (h : HostConfig) (o : ProbeOutcome) (t : Int),
      ping_host h o t = Except.ok (ping_result h o t)) ∧
    (∀ (h : HostConfig) (t : Int),
      tick_classification h ProbeOutcome.failure t = Status.offline ∧
      tick_classification h ProbeOutcome.timeout t = Status.offline) ∧
    (∀ (o : ProbeOutcome) (t : Int),
      check_host fails host_id host o t db map
        = ((db, map), Except.error "persistence failure")) ∧
    (check_all_hosts fails outcomes now hosts (db, map)).2 = Except.ok () ∧
    (check_all_hosts fails outcomes now hosts (db, map)).1 =
      (check_all_hosts (fun _ => false) outcomes now
        (hosts.filter (fun p => !(fails p.1))) (db, map)).1 :=
  ⟨fun _ _ _ => rfl, fun _ _ => ⟨rfl, rfl⟩,
    fun o t => check_host_fail_state fails host_id host o t db map hfail,
    check_all_hosts_ok fails outcomes now hosts (db, map),
    check_all_hosts_skip_failing fails outcomes now hosts (db, map)⟩

/-- Witness for C8: persistence fails exactly for host 1; a tick over
hosts 1 and 2 still returns Ok and equals the no-failure tick over host
2 alone. -/
theorem probe_failure_folded_and_tick_succeeds_witness :
    (∀ (h : HostConfig) (o : ProbeOutcome) (t : Int),
      ping_host h o t = Except.ok (ping_result h o t)) ∧
    (∀ (h : HostConfig) (t : Int),
      tick_classification h ProbeOutcome.failure t = Status.offline ∧
      tick_classification h ProbeOutcome.timeout t = Status.offline) ∧
    (∀ (o : ProbeOutcome) (t : Int),
      check_host (fun i => i == 1) 1 ⟨"hostA", "10.0.0.1"⟩ o t Db.empty []
        = ((Db.empty, []), Except.error "persistence failure")) ∧
    (check_all_hosts (fun i => i == 1) (fun _ => ProbeOutcome.failure) 0
      [(1, ⟨"hostA", "10.0.0.1"⟩), (2, ⟨"hostB", "10.0.0.2"⟩)]
      (Db.empty, [])).2 = Except.ok () ∧
    (check_all_hosts (fun i => i == 1) (fun _ => ProbeOutcome.failure) 0
      [(1, ⟨"hostA", "10.0.0.1"⟩), (2, ⟨"hostB", "10.0.0.2"⟩)]
      (Db.empty, [])).1 =
      (check_all_hosts (fun _ => false) (fun _ => ProbeOutcome.failure) 0
        ([(1, ⟨"hostA", "10.0.0.1"⟩),
          (2, ⟨"hostB", "10.0.0.2"⟩)].filter (fun p => !(p.1 == 1)))
        (Db.empty, [])).1 :=
  probe_failure_folded_and_tick_succeeds (fun i => i == 1)
    (fun _ => ProbeOutcome.failure) 0 1 ⟨"hostA", "10.0.0.1"⟩ Db.empty []
    [(1, ⟨"hostA", "10.0.0.1"⟩), (2, ⟨"hostB", "10.0.0.2"⟩)] rfl

/-! Helper lemmas for the bootstrap events of Monitor::new. -/

/-- The accumulator is below the running maximum of a fold. -/
lemma le_foldl_max (l : List Int) (a : Int) : a ≤ l.foldl max a := by
  induction l generalizing a with
  | nil => exact le_refl a
  | cons b t ih => exact le_trans (le_max_left a b) (ih (max a b))

/-- Every member is below the running maximum of a fold. -/
lemma mem_le_foldl_max (l : List Int) (a : Int) :
    ∀ x ∈ l, x ≤ l.foldl max a := by
  induction l generalizing a with
  | nil => intro x hx; simp at hx
  | cons b t ih =>
    intro x hx
    rcases List.mem_cons.mp hx with h | h
    · subst h
      exact le_trans (le_max_right a x) (le_foldl_max t (max a x))
    · exact ih (max a b) x h

/-- The id of every host row is strictly below nextHostId. -/
lemma host_id_lt_nextHostId (db : Db) :
    ∀ r ∈ db.hosts, r.id < nextHostId db := by
  intro r hr
  have := mem_le_foldl_max (db.hosts.map (·.id)) 0 r.id
    (List.mem_map_of_mem _ hr)
  unfold nextHostId
  omega

/-- The id handed to a newly inserted host row is fresh. -/
lemma nextHostId_not_mem (db : Db) :
    nextHostId db ∉ db.hosts.map (·.id) := by
  intro hmem
  obtain ⟨r, hr, hid⟩ := List.mem_map.mp hmem
  have := host_id_lt_nextHostId db r hr
  omega

/-- Reconciling the last session leaves the hosts table unchanged. -/
lemma reconcile_last_session_hosts (db : Db) :
    (reconcile_last_session db).hosts = db.hosts := by
  unfold reconcile_last_session
  cases get_last_session db with
  | none => rfl
  | some s =>
    by_cases h : s.stopped_at = none
    · cases get_last_ping_timestamp db with
      | none => simp only [h, if_pos]; rfl
      | some t => simp only [h, if_pos]; rfl
    · simp only [h, if_neg, not_false_iff]

/-- Reconciling the last session leaves the event log unchanged. -/
lemma reconcile_last_session_host_events (db : Db) :
    (reconcile_last_session db).host_events = db.host_events := by
  unfold reconcile_last_session
  cases get_last_session db with
  | none => rfl
  | some s =>
    by_cases h : s.stopped_at = none
    · cases get_last_ping_timestamp db with
      | none => simp only [h, if_pos]; rfl
      | some t => simp only [h, if_pos]; rfl
    · simp only [h, if_neg, not_false_iff]

/-- Creating a session touches neither the hosts table nor the event
log. -/
lemma create_session_hosts (db : Db) (now : Int) :
    (create_session db now).1.hosts = db.hosts ∧
    (create_session db now).1.host_events = db.host_events := ⟨rfl, rfl⟩

/-- upsert_host when the config matches an existing row. -/
lemma upsert_host_found (db : Db) (c : HostConfig) (now : Int) (r : Host)
    (hf : db.hosts.find? (fun h =>
      h.hostname == c.hostname && h.ip_address == c.ip_address) = some r) :
    upsert_host db c now = (r.id, false, db) := by
  rw [upsert_host, hf]

/-- upsert_host when no row matches the config: a fresh row is
appended. -/
lemma upsert_host_new (db : Db) (c : HostConfig) (now : Int)
    (hf : db.hosts.find? (fun h =>
      h.hostname == c.hostname && h.ip_address == c.ip_address) = none) :
    upsert_host db c now = (nextHostId db, true,
      { db with hosts := db.hosts ++
          [{ id := nextHostId db, hostname := c.hostname,
             ip_address := c.ip_address, created_at := now,
             first_inserted := none }] }) := by
  rw [upsert_host, hf]

/-- One step of the upsert loop of Monitor::new: upsert the host, then
record its bootstrap event (Offline when new, Unknown when already
present). -/
def upsert_step (db : Db) (h : HostConfig) (now : Int) : Db :=
  record_event (upsert_host db h now).2.2 (upsert_host db h now).1
    (if (upsert_host db h now).2.1 then EventType.offline
      else EventType.unknown) now

/-- Each entry resolved by the upsert loop either carries the id of a
pre-existing row matching its config, or an id absent from the starting
hosts table. -/
lemma upsertAll_resolved_src (now : Int) :
    ∀ (rest : List HostConfig) (db0 : Db) (p : Int × HostConfig),
      p ∈ (upsertAll db0 now rest).2 →
      p.2 ∈ rest ∧
        ((∃ r ∈ db0.hosts, r.id = p.1 ∧ r.hostname = p.2.hostname ∧
          r.ip_address = p.2.ip_address) ∨
          p.1 ∉ db0.hosts.map (·.id)) := by
  intro rest
  induction rest with
  | nil => intro db0 p hp; simp [upsertAll] at hp
  | cons h rest2 ih =>
    intro db0 p hp
    rw [show (upsertAll db0 now (h :: rest2)).2 =
      ((upsert_host db0 h now).1, h) ::
        (upsertAll (upsert_step db0 h now) now rest2).2 from rfl] at hp
    rcases List.mem_cons.mp hp with hp | hp
    · subst hp
      refine ⟨List.mem_cons_self h rest2, ?_⟩
      cases hf : db0.hosts.find? (fun r =>
          r.hostname == h.hostname && r.ip_address == h.ip_address) with
      | some r =>
        left
        have hpf := List.find?_some hf
        simp only [Bool.and_eq_true, beq_iff_eq] at hpf
        refine ⟨r, List.mem_of_find?_eq_some hf, ?_, hpf.1, hpf.2⟩
        rw [upsert_host_found db0 h now r hf]
      | none =>
        right
        rw [upsert_host_new db0 h now hf]
        exact nextHostId_not_mem db0
    · have htail := ih (upsert_step db0 h now) p hp
      refine ⟨List.mem_cons_of_mem h htail.1, ?_⟩
      cases hf : db0.hosts.find? (fun r =>
          r.hostname == h.hostname && r.ip_address == h.ip_address) with
      | some r0 =>
        have hhosts : (upsert_step db0 h now).hosts = db0.hosts := by
          rw [upsert_step, upsert_host_found db0 h now r0 hf]
          rfl
        rw [hhosts] at htail
        exact htail.2
      | none =>
        have hhosts : (upsert_step db0 h now).hosts = db0.hosts ++
            [{ id := nextHostId db0, hostname := h.hostname,
               ip_address := h.ip_address, created_at := now,
               first_inserted := none }] := by
          rw [upsert_step, upsert_host_new db0 h now hf]
          rfl
        rw [hhosts] at htail
        rcases htail.2 with ⟨r, hr, hrid, hrh, hri⟩ | hnot
        · rcases List.mem_append.mp hr with hr | hr
          · exact Or.inl ⟨r, hr, hrid, hrh, hri⟩
          · right
            simp only [List.mem_singleton] at hr
            rw [← hrid, hr]
            exact nextHostId_not_mem db0
        · right
          intro hmem
          exact hnot (by
            rw [List.map_append]
            exact List.mem_append_left _ hmem)

/-- Two host configs agreeing on both fields are equal. -/
lemma hostconfig_eq (a b : HostConfig) (h1 : a.hostname = b.hostname)
    (h2 : a.ip_address = b.ip_address) : a = b := by
  cases a
  cases b
  simp_all

/-- upsert_host leaves the event log unchanged. -/
lemma upsert_host_host_events (db : Db) (c : HostConfig) (now : Int) :
    (upsert_host db c now).2.2.host_events = db.host_events := by
  cases hf : db.hosts.find? (fun h =>
      h.hostname == c.hostname && h.ip_address == c.ip_address) with
  | some r => rw [upsert_host_found db c now r hf]
  | none => rw [upsert_host_new db c now hf]

/-- The hosts table after an upsert step that found an existing row. -/
lemma upsert_step_hosts_found (db : Db) (c : HostConfig) (now : Int)
    (r : Host) (hf : db.hosts.find? (fun h =>
      h.hostname == c.hostname && h.ip_address == c.ip_address) = some r) :
    (upsert_step db c now).hosts = db.hosts := by
  rw [upsert_step, upsert_host_found db c now r hf]
  rfl

/-- The hosts table after an upsert step that inserted a fresh row. -/
lemma upsert_step_hosts_new (db : Db) (c : HostConfig) (now : Int)
    (hf : db.hosts.find? (fun h =>
      h.hostname == c.hostname && h.ip_address == c.ip_address) = none) :
    (upsert_step db c now).hosts = db.hosts ++
      [{ id := nextHostId db, hostname := c.hostname,
         ip_address := c.ip_address, created_at := now,
         first_inserted := none }] := by
  rw [upsert_step, upsert_host_new db c now hf]
  rfl

/-- An upsert step keeps the host ids duplicate-free. -/
lemma upsert_step_ids_nodup (db : Db) (c : HostConfig) (now : Int)
    (hids : (db.hosts.map (·.id)).Nodup) :
    ((upsert_step db c now).hosts.map (·.id)).Nodup := by
  cases hf : db.hosts.find? (fun h =>
      h.hostname == c.hostname && h.ip_address == c.ip_address) with
  | some r => rw [upsert_step_hosts_found db c now r hf]; exact hids
  | none =>
    rw [upsert_step_hosts_new db c now hf, List.map_append]
    rw [List.nodup_append]
    refine ⟨hids, List.nodup_singleton _, ?_⟩
    intro a ha hb
    simp only [List.map_cons, List.map_nil, List.mem_singleton] at hb
    rw [hb] at ha
    exact nextHostId_not_mem db ha

/-- The bootstrap event type of an upsert step, phrased through
membership of the resolved id in the starting hosts table: Unknown for
an existing id, Offline for a genuinely new one. -/
lemma upsert_step_event_type (db : Db) (c : HostConfig) (now : Int) :
    (if (upsert_host db c now).2.1 then EventType.offline
      else EventType.unknown) =
    (if (upsert_host db c now).1 ∈ db.hosts.map (·.id) then
      EventType.unknown else EventType.offline) := by
  cases hf : db.hosts.find? (fun h =>
      h.hostname == c.hostname && h.ip_address == c.ip_address) with
  | some r =>
    rw [upsert_host_found db c now r hf]
    simp only [Bool.false_eq_true, if_neg, not_false_iff]
    rw [if_pos (List.mem_map_of_mem _ (List.mem_of_find?_eq_some hf))]
  | none =>
    rw [upsert_host_new db c now hf]
    simp only [if_pos]
    rw [if_neg (nextHostId_not_mem db)]

/-- The resolved id of an upsert step is present in the hosts table
after the step. -/
lemma upsert_step_id_mem (db : Db) (c : HostConfig) (now : Int) :
    (upsert_host db c now).1 ∈ (upsert_step db c now).hosts.map (·.id) := by
  cases hf : db.hosts.find? (fun h =>
      h.hostname == c.hostname && h.ip_address == c.ip_address) with
  | some r =>
    rw [upsert_step_hosts_found db c now r hf,
      upsert_host_found db c now r hf]
    exact List.mem_map_of_mem _ (List.mem_of_find?_eq_some hf)
  | none =>
    rw [upsert_step_hosts_new db c now hf, upsert_host_new db c now hf,
      List.map_append]
    refine List.mem_append_right _ ?_
    simp

/-- Ids other than the one just resolved are in the post-step hosts
table exactly when they were in the starting one. -/
lemma upsert_step_ids_mem_iff (db : Db) (c : HostConfig) (now : Int)
    (pid : Int) (hne : pid ≠ (upsert_host db c now).1) :
    (pid ∈ (upsert_step db c now).hosts.map (·.id)) ↔
      pid ∈ db.hosts.map (·.id) := by
  cases hf : db.hosts.find? (fun h =>
      h.hostname == c.hostname && h.ip_address == c.ip_address) with
  | some r => rw [upsert_step_hosts_found db c now r hf]
  | none =>
    rw [upsert_host_new db c now hf] at hne
    rw [upsert_step_hosts_new db c now hf, List.map_append,
      List.mem_append]
    simp only [List.map_cons, List.map_nil, List.mem_singleton]
    constructor
    · intro hm
      rcases hm with hm | hm
      · exact hm
      · exact absurd hm hne
    · exact Or.inl

/-- One upsert step appends exactly one event: for the resolved id,
Unknown when the id pre-existed and Offline when it is new. -/
lemma upsert_step_host_events (db : Db) (c : HostConfig) (now : Int) :
    ∃ ev : HostEvent,
      (upsert_step db c now).host_events = db.host_events ++ [ev] ∧
      ev.host_id = (upsert_host db c now).1 ∧
      ev.event_type =
        (if (upsert_host db c now).1 ∈ db.hosts.map (·.id) then
          EventType.unknown else EventType.offline) := by
  refine ⟨⟨nextEventId (upsert_host db c now).2.2,
    (upsert_host db c now).1,
    (if (upsert_host db c now).2.1 then EventType.offline
      else EventType.unknown), now⟩, ?_, rfl,
    upsert_step_event_type db c now⟩
  rw [upsert_step, record_event_host_events, upsert_host_host_events]

/-- Entries resolved further down the upsert loop never reuse the id
the head host resolved to, provided the head config is not repeated and
ids were duplicate-free. -/
lemma upsertAll_tail_id_ne (now : Int) (db0 : Db) (h : HostConfig)
    (rest2 : List HostConfig) (hh : h ∉ rest2)
    (hids : (db0.hosts.map (·.id)).Nodup) :
    ∀ p ∈ (upsertAll (upsert_step db0 h now) now rest2).2,
      p.1 ≠ (upsert_host db0 h now).1 := by
  intro p hp heq
  have hsrc := upsertAll_resolved_src now rest2 (upsert_step db0 h now) p hp
  cases hf : db0.hosts.find? (fun r =>
      r.hostname == h.hostname && r.ip_address == h.ip_address) with
  | some r0 =>
    have hid0 : (upsert_host db0 h now).1 = r0.id := by
      rw [upsert_host_found db0 h now r0 hf]
    have hpf := List.find?_some hf
    simp only [Bool.and_eq_true, beq_iff_eq] at hpf
    rcases hsrc.2 with ⟨r, hr, hrid, hrh, hri⟩ | hnot
    · rw [upsert_step_hosts_found db0 h now r0 hf] at hr
      have hrr0 : r = r0 := List.inj_on_of_nodup_map hids hr
        (List.mem_of_find?_eq_some hf) (by rw [hrid, heq, hid0])
      have hcfg : p.2 = h := hostconfig_eq p.2 h
        (by rw [← hrh, hrr0, hpf.1]) (by rw [← hri, hrr0, hpf.2])
      exact hh (hcfg ▸ hsrc.1)
    · exact hnot (heq ▸ upsert_step_id_mem db0 h now)
  | none =>
    have hid0 : (upsert_host db0 h now).1 = nextHostId db0 := by
      rw [upsert_host_new db0 h now hf]
    rcases hsrc.2 with ⟨r, hr, hrid, hrh, hri⟩ | hnot
    · rw [upsert_step_hosts_new db0 h now hf] at hr
      rcases List.mem_append.mp hr with hr | hr
      · have := host_id_lt_nextHostId db0 r hr
        rw [hrid, heq, hid0] at this
        omega
      · simp only [List.mem_singleton] at hr
        have hcfg : p.2 = h := hostconfig_eq p.2 h
          (by rw [← hrh, hr]) (by rw [← hri, hr])
        exact hh (hcfg ▸ hsrc.1)
    · exact hnot (heq ▸ upsert_step_id_mem db0 h now)

/-- The upsert loop of Monitor::new appends exactly one bootstrap event
per resolved host: Unknown when the host id already existed in the
starting hosts table, Offline when the host was created by this call. -/
lemma upsertAll_bootstrap (now : Int) :
    ∀ (rest : List HostConfig) (db0 : Db), rest.Nodup →
      (db0.hosts.map (·.id)).Nodup →
      ∃ appendix,
        (upsertAll db0 now rest).1.host_events =
          db0.host_events ++ appendix ∧
        (∀ e ∈ appendix, ∃ p ∈ (upsertAll db0 now rest).2,
          e.host_id = p.1) ∧
        ∀ p ∈ (upsertAll db0 now rest).2,
          ∃ ev, appendix.filter (fun e => e.host_id == p.1) = [ev] ∧
            ev.event_type =
              (if p.1 ∈ db0.hosts.map (·.id) then EventType.unknown
                else EventType.offline) := by
  intro rest
  induction rest with
  | nil =>
    intro db0 _ _
    exact ⟨[], by simp [upsertAll], by simp, by simp [upsertAll]⟩
  | cons h rest2 ih =>
    intro db0 hnd hids
    obtain ⟨appendix2, he2, hcov2, hsing2⟩ := ih (upsert_step db0 h now)
      (List.nodup_cons.mp hnd).2 (upsert_step_ids_nodup db0 h now hids)
    obtain ⟨ev0, hev0, hevid, hevty⟩ := upsert_step_host_events db0 h now
    have hres : (upsertAll db0 now (h :: rest2)).2 =
        ((upsert_host db0 h now).1, h) ::
          (upsertAll (upsert_step db0 h now) now rest2).2 := rfl
    have hdb : (upsertAll db0 now (h :: rest2)).1 =
        (upsertAll (upsert_step db0 h now) now rest2).1 := rfl
    refine ⟨ev0 :: appendix2, ?_, ?_, ?_⟩
    · rw [hdb, he2, hev0, List.append_assoc]
      rfl
    · intro e he
      rcases List.mem_cons.mp he with he | he
      · refine ⟨((upsert_host db0 h now).1, h), ?_, ?_⟩
        · rw [hres]; exact List.mem_cons_self _ _
        · rw [he, hevid]
      · obtain ⟨p, hp, hep⟩ := hcov2 e he
        refine ⟨p, ?_, hep⟩
        rw [hres]
        exact List.mem_cons_of_mem _ hp
    · intro p hp
      rw [hres] at hp
      rcases List.mem_cons.mp hp with hp | hp
      · subst hp
        refine ⟨ev0, ?_, hevty⟩
        rw [List.filter_cons, if_pos (by simp [hevid])]
        have hnil : appendix2.filter (fun e =>
            e.host_id == (upsert_host db0 h now).1) = [] := by
          rw [List.filter_eq_nil_iff]
          intro e he
          obtain ⟨q, hq, heq⟩ := hcov2 e he
          have hne := upsertAll_tail_id_ne now db0 h rest2
            (List.nodup_cons.mp hnd).1 hids q hq
          simp only [beq_iff_eq]
          intro hcontra
          exact hne (by rw [← heq, hcontra])
        rw [hnil]
      · obtain ⟨ev, hevf, hevt2⟩ := hsing2 p hp
        have hne := upsertAll_tail_id_ne now db0 h rest2
          (List.nodup_cons.mp hnd).1 hids p hp
        refine ⟨ev, ?_, ?_⟩
        · rw [List.filter_cons, if_neg (by
            simp only [hevid, beq_iff_eq]
            exact fun hcontra => hne hcontra.symm)]
          exact hevf
        · rw [hevt2,
            if_congr (upsert_step_ids_mem_iff db0 h now p.1 hne) rfl rfl]

/-- Recording Unknown for every loaded host appends exactly one
Unknown event per host. -/
lemma foldl_record_unknown_bootstrap (now : Int) :
    ∀ (l : List (Int × HostConfig)) (db0 : Db), (l.map (·.1)).Nodup →
      ∃ appendix,
        (l.foldl (fun d p => record_event d p.1 EventType.unknown now)
          db0).host_events = db0.host_events ++ appendix ∧
        (∀ e ∈ appendix, ∃ p ∈ l, e.host_id = p.1) ∧
        ∀ p ∈ l, ∃ ev,
          appendix.filter (fun e => e.host_id == p.1) = [ev] ∧
          ev.event_type = EventType.unknown := by
  intro l
  induction l with
  | nil => intro db0 _; exact ⟨[], by simp, by simp, by simp⟩
  | cons q rest ih =>
    intro db0 hnd
    rw [List.map_cons, List.nodup_cons] at hnd
    obtain ⟨appendix2, he2, hcov2, hsing2⟩ :=
      ih (record_event db0 q.1 EventType.unknown now) hnd.2
    refine ⟨⟨nextEventId db0, q.1, EventType.unknown, now⟩ :: appendix2,
      ?_, ?_, ?_⟩
    · rw [List.foldl_cons, he2, record_event_host_events,
        List.append_assoc]
      rfl
    · intro e he
      rcases List.mem_cons.mp he with he | he
      · exact ⟨q, List.mem_cons_self q rest, by rw [he]⟩
      · obtain ⟨p, hp, hep⟩ := hcov2 e he
        exact ⟨p, List.mem_cons_of_mem q hp, hep⟩
    · intro p hp
      rcases List.mem_cons.mp hp with hp | hp
      · subst hp
        refine ⟨⟨nextEventId db0, p.1, EventType.unknown, now⟩, ?_, rfl⟩
        rw [List.filter_cons, if_pos (by simp)]
        have hnil : appendix2.filter (fun e => e.host_id == p.1) = [] := by
          rw [List.filter_eq_nil_iff]
          intro e he
          obtain ⟨r, hr, her⟩ := hcov2 e he
          simp only [beq_iff_eq]
          intro hcontra
          exact hnd.1 (by
            rw [← hcontra, her]
            exact List.mem_map_of_mem _ hr)
        rw [hnil]
      · obtain ⟨ev, hevf, hevt⟩ := hsing2 p hp
        refine ⟨ev, ?_, hevt⟩
        rw [List.filter_cons, if_neg (by
          simp only [beq_iff_eq]
          intro hcontra
          exact hnd.1 (hcontra ▸ List.mem_map_of_mem _ hp))]
        exact hevf

/-- C5: during Monitor startup over pairwise-distinct host configs (and
a hosts table with duplicate-free ids), the events appended by the call
contain exactly one bootstrap event per resolved host, and that event
is Offline when the host id did not exist in the store before this
startup (the host was created by the upsert in this call) and Unknown
when the host already existed — in particular a genuinely new host
never receives a bootstrap Unknown, and an existing host's single
bootstrap event, its first event after restart, is Unknown.  Both
branches of Monitor::new are covered: hosts = [] loads every stored
host (all pre-existing, hence Unknown), and a non-empty list is
upserted host by host. -/
theorem monitor_new_bootstrap_events (db : Db) (hosts : List HostConfig)
    (now : Int) (hnodup : hosts.Nodup)
    (hids : (db.hosts.map (·.id)).Nodup) :
    ∃ appendix, (monitor_new db hosts now).db.host_events =
        db.host_events ++ appendix ∧
      ∀ p ∈ (monitor_new db hosts now).hosts,
        ∃ ev, appendix.filter (fun e => e.host_id == p.1) = [ev] ∧
          ev.event_type = (if p.1 ∈ db.hosts.map (·.id) then
            EventType.unknown else EventType.offline) := by
  set db0 := (create_session (reconcile_last_session db) now).1 with hdb0
  have hhosts : db0.hosts = db.hosts := by
    rw [hdb0, (create_session_hosts (reconcile_last_session db) now).1,
      reconcile_last_session_hosts]
  have hevents : db0.host_events = db.host_events := by
    rw [hdb0, (create_session_hosts (reconcile_last_session db) now).2,
      reconcile_last_session_host_events]
  cases hosts with
  | nil =>
    have hmdb : (monitor_new db [] now).db =
        (get_hosts db0).foldl
          (fun d p => record_event d p.1 EventType.unknown now) db0 := rfl
    have hmhosts : (monitor_new db [] now).hosts = get_hosts db0 := rfl
    have hnd0 : ((get_hosts db0).map (·.1)).Nodup := by
      have : (get_hosts db0).map (·.1) = db0.hosts.map (·.id) := by
        rw [get_hosts, List.map_map]
        rfl
      rw [this, hhosts]
      exact hids
    obtain ⟨appendix, ha, hcov, hsing⟩ :=
      foldl_record_unknown_bootstrap now (get_hosts db0) db0 hnd0
    refine ⟨appendix, by rw [hmdb, ha, hevents], ?_⟩
    intro p hp
    rw [hmhosts] at hp
    obtain ⟨ev, hf, hty⟩ := hsing p hp
    refine ⟨ev, hf, ?_⟩
    rw [hty, if_pos ?_]
    obtain ⟨r, hr, hpr⟩ := List.mem_map.mp hp
    rw [← hpr]
    rw [hhosts] at hr
    exact List.mem_map_of_mem _ hr
  | cons h t =>
    have hmdb : (monitor_new db (h :: t) now).db =
        (upsertAll db0 now (h :: t)).1 := rfl
    have hmhosts : (monitor_new db (h :: t) now).hosts =
        (upsertAll db0 now (h :: t)).2 := rfl
    obtain ⟨appendix, ha, hcov, hsing⟩ := upsertAll_bootstrap now (h :: t)
      db0 hnodup (by rw [hhosts]; exact hids)
    refine ⟨appendix, by rw [hmdb, ha, hevents], ?_⟩
    intro p hp
    rw [hmhosts] at hp
    obtain ⟨ev, hf, hty⟩ := hsing p hp
    exact ⟨ev, hf, by rw [hty, hhosts]⟩

/-- Witness for C5: host A pre-exists with id 5, host B is new; startup
appends exactly one Unknown event for A and one Offline event for B. -/
theorem monitor_new_bootstrap_events_witness :
    ∃ appendix,
      (monitor_new ⟨[⟨5, "hostA", "10.0.0.1", 0, none⟩], [], [], []⟩
        [⟨"hostA", "10.0.0.1"⟩, ⟨"hostB", "10.0.0.2"⟩] 100).db.host_events =
        ([] : List HostEvent) ++ appendix ∧
      ∀ p ∈ (monitor_new ⟨[⟨5, "hostA", "10.0.0.1", 0, none⟩], [], [], []⟩
          [⟨"hostA", "10.0.0.1"⟩, ⟨"hostB", "10.0.0.2"⟩] 100).hosts,
        ∃ ev, appendix.filter (fun e => e.host_id == p.1) = [ev] ∧
          ev.event_type = (if p.1 ∈
              ([⟨5, "hostA", "10.0.0.1", 0, none⟩] : List Host).map (·.id)
            then EventType.unknown else EventType.offline) :=
  monitor_new_bootstrap_events ⟨[⟨5, "hostA", "10.0.0.1", 0, none⟩],
    [], [], []⟩ [⟨"hostA", "10.0.0.1"⟩, ⟨"hostB", "10.0.0.2"⟩] 100
    (by decide) (by decide)

/-! Reachability through the core's mutation surface, for the session
invariant. -/

/-- The core mutation operations (spec section 7): upsert_host,
record_event, record_ping, set_first_inserted, and the session
operations — create_session runs only inside Monitor::new right after
the startup reconciliation, and close_session runs there and in
Monitor::shutdown (which may target any session id a Monitor ever
held). -/
inductive CoreOp where
  | monitorNewOp (hosts : List HostConfig) (now : Int)
  | shutdownOp (session_id : Int) (now : Int)
  | recordEventOp (host_id : Int) (ty : EventType) (now : Int)
  | recordPingOp (host_id : Int) (sc tc : Nat) (al : Option Rat) (now : Int)
  | upsertHostOp (c : HostConfig) (now : Int)
  | setFirstInsertedOp (host_id t : Int)

/-- Effect of one core operation on the database. -/
def apply_op : CoreOp → Db → Db
  | .monitorNewOp hosts now, db => (monitor_new db hosts now).db
  | .shutdownOp sid now, db => close_session db sid now "graceful"
  | .recordEventOp h ty now, db => record_event db h ty now
  | .recordPingOp h sc tc al now, db => record_ping_result db h sc tc al now
  | .upsertHostOp c now, db => (upsert_host db c now).2.2
  | .setFirstInsertedOp h t, db => set_first_inserted db h t

/-- Databases reachable from the empty store through core operations. -/
inductive ReachableDb : Db → Prop where
  | empty : ReachableDb Db.empty
  | step (op : CoreOp) {db : Db} : ReachableDb db → ReachableDb (apply_op op db)

/-- Well-formedness of the sessions table maintained by the core:
session ids strictly increase along the table, and every session other
than the last is closed. -/
def sessions_wf (l : List ServerSession) : Prop :=
  l.Pairwise (fun a b => a.id < b.id) ∧
    ∀ s ∈ l.dropLast, s.stopped_at ≠ none

/-- close_session maps each row, closing the matching id. -/
lemma close_session_server_sessions (db : Db) (sid t : Int) (ty : String) :
    (close_session db sid t ty).server_sessions =
      db.server_sessions.map (fun ss => if ss.id == sid then
        { ss with stopped_at := some t, shutdown_type := some ty }
        else ss) := rfl

/-- Closing a session never changes a row id. -/
lemma close_apply_id (sid t : Int) (ty : String) (ss : ServerSession) :
    (if ss.id == sid then
      { ss with stopped_at := some t, shutdown_type := some ty }
      else ss).id = ss.id := by
  split <;> rfl

/-- Closing a session never reopens a row. -/
lemma close_apply_closed (sid t : Int) (ty : String) (ss : ServerSession)
    (h : ss.stopped_at ≠ none) :
    (if ss.id == sid then
      { ss with stopped_at := some t, shutdown_type := some ty }
      else ss).stopped_at ≠ none := by
  split
  · simp
  · exact h

/-- close_session preserves well-formedness of the sessions table. -/
lemma sessions_wf_close (db : Db) (sid t : Int) (ty : String)
    (hwf : sessions_wf db.server_sessions) :
    sessions_wf (close_session db sid t ty).server_sessions := by
  constructor
  · rw [close_session_server_sessions, List.pairwise_map]
    exact hwf.1.imp (fun h => by
      rw [close_apply_id, close_apply_id]; exact h)
  · rw [close_session_server_sessions]
    intro s hs
    have hdl : (db.server_sessions.map (fun ss => if ss.id == sid then
        { ss with stopped_at := some t, shutdown_type := some ty }
        else ss)).dropLast = db.server_sessions.dropLast.map
        (fun ss => if ss.id == sid then
          { ss with stopped_at := some t, shutdown_type := some ty }
          else ss) := by
      exact (List.map_dropLast _ _).symm
    rw [hdl] at hs
    obtain ⟨s0, hs0, rfl⟩ := List.mem_map.mp hs
    exact close_apply_closed sid t ty s0 (hwf.2 s0 hs0)

/-- The id of every session row is strictly below nextSessionId. -/
lemma session_id_lt_nextSessionId (db : Db) :
    ∀ s ∈ db.server_sessions, s.id < nextSessionId db := by
  intro s hs
  have := mem_le_foldl_max (db.server_sessions.map (·.id)) 0 s.id
    (List.mem_map_of_mem _ hs)
  unfold nextSessionId
  omega

/-- Reconciliation preserves the list of session ids. -/
lemma reconcile_session_ids (db : Db) :
    (reconcile_last_session db).server_sessions.map (·.id) =
      db.server_sessions.map (·.id) := by
  have hcl : ∀ (sid t : Int) (ty : String),
      (close_session db sid t ty).server_sessions.map (·.id) =
        db.server_sessions.map (·.id) := by
    intro sid t ty
    rw [close_session_server_sessions, List.map_map]
    exact List.map_congr_left (fun ss _ => close_apply_id sid t ty ss)
  unfold reconcile_last_session
  cases get_last_session db with
  | none => rfl
  | some s =>
    by_cases h : s.stopped_at = none
    · cases get_last_ping_timestamp db with
      | none => simp only [h, if_pos]; exact hcl _ _ _
      | some t => simp only [h, if_pos]; exact hcl _ _ _
    · simp only [h, if_neg, not_false_iff]

/-- nextSessionId is unchanged by reconciliation. -/
lemma nextSessionId_reconcile (db : Db) :
    nextSessionId (reconcile_last_session db) = nextSessionId db := by
  unfold nextSessionId
  rw [reconcile_session_ids]

/-- Reconciliation preserves well-formedness. -/
lemma reconcile_sessions_wf (db : Db)
    (hwf : sessions_wf db.server_sessions) :
    sessions_wf (reconcile_last_session db).server_sessions := by
  unfold reconcile_last_session
  cases get_last_session db with
  | none => exact hwf
  | some s =>
    by_cases h : s.stopped_at = none
    · cases get_last_ping_timestamp db with
      | none => simp only [h, if_pos]; exact sessions_wf_close db _ _ _ hwf
      | some t => simp only [h, if_pos]; exact sessions_wf_close db _ _ _ hwf
    · simp only [h, if_neg, not_false_iff]; exact hwf

/-- After reconciliation every session in the table is closed: either
the last one was already closed (and all earlier ones are closed by
well-formedness), or the last one was open and reconciliation closes
it. -/
lemma reconcile_all_closed (db : Db)
    (hwf : sessions_wf db.server_sessions) :
    ∀ s ∈ (reconcile_last_session db).server_sessions,
      s.stopped_at ≠ none := by
  unfold reconcile_last_session
  cases hls : get_last_session db with
  | none =>
    have hnil : db.server_sessions = [] := by
      rw [get_last_session] at hls
      exact List.getLast?_eq_none_iff.mp hls
    intro s hs
    rw [hnil] at hs
    simp at hs
  | some last =>
    have hsplit : db.server_sessions.dropLast ++ [last] =
        db.server_sessions :=
      List.dropLast_append_getLast? last hls
    by_cases h : last.stopped_at = none
    · have key : ∀ (t : Int) (ty : String),
          ∀ s ∈ (close_session db last.id t ty).server_sessions,
            s.stopped_at ≠ none := by
        intro t ty s hs
        rw [close_session_server_sessions] at hs
        obtain ⟨s0, hs0, rfl⟩ := List.mem_map.mp hs
        by_cases hid : s0.id == last.id
        · simp [hid]
        · have hidf : (s0.id == last.id) = false := by simpa using hid
          simp only [hidf, Bool.false_eq_true, if_neg, not_false_iff]
          rw [← hsplit] at hs0
          rcases List.mem_append.mp hs0 with h0 | h0
          · exact hwf.2 s0 h0
          · simp only [List.mem_singleton] at h0
            rw [h0] at hidf
            simp at hidf
      cases get_last_ping_timestamp db with
      | none => simp only [h, if_pos]; exact key _ _
      | some t => simp only [h, if_pos]; exact key _ _
    · simp only [h, if_neg, not_false_iff]
      intro s hs
      rw [← hsplit] at hs
      rcases List.mem_append.mp hs with h0 | h0
      · exact hwf.2 s h0
      · simp only [List.mem_singleton] at h0
        rw [h0]
        exact h

/-- The sessions table after Monitor::new: the reconciled table plus a
fresh open session. -/
lemma monitor_new_sessions (db : Db) (hosts : List HostConfig) (now : Int) :
    (monitor_new db hosts now).db.server_sessions =
      (reconcile_last_session db).server_sessions ++
        [{ id := nextSessionId (reconcile_last_session db),
           started_at := now, stopped_at := none,
           shutdown_type := none }] := by
  rw [monitor_new_db_server_sessions]
  rfl

/-- Monitor::new preserves well-formedness of the sessions table. -/
lemma monitor_new_wf (db : Db) (hosts : List HostConfig) (now : Int)
    (hwf : sessions_wf db.server_sessions) :
    sessions_wf (monitor_new db hosts now).db.server_sessions := by
  rw [monitor_new_sessions]
  constructor
  · rw [List.pairwise_append]
    refine ⟨(reconcile_sessions_wf db hwf).1,
      List.pairwise_singleton _ _, ?_⟩
    intro a ha b hb
    simp only [List.mem_singleton] at hb
    subst hb
    exact session_id_lt_nextSessionId _ a ha
  · intro s hs
    have hdl : ((reconcile_last_session db).server_sessions ++
        [({ id := nextSessionId (reconcile_last_session db),
            started_at := now, stopped_at := none,
            shutdown_type := none } : ServerSession)]).dropLast =
        (reconcile_last_session db).server_sessions := by simp
    rw [hdl] at hs
    exact reconcile_all_closed db hwf s hs

/-- Every reachable database has a well-formed sessions table. -/
lemma reachable_sessions_wf (db : Db) (hr : ReachableDb db) :
    sessions_wf db.server_sessions := by
  induction hr with
  | empty => exact ⟨List.Pairwise.nil, by simp [Db.empty]⟩
  | step op hdb ih =>
    cases op with
    | monitorNewOp hosts now => exact monitor_new_wf _ hosts now ih
    | shutdownOp sid now => exact sessions_wf_close _ sid now _ ih
    | recordEventOp h ty now => exact ih
    | recordPingOp h sc tc al now => exact ih
    | upsertHostOp c now =>
      show sessions_wf (upsert_host _ c now).2.2.server_sessions
      rw [upsert_host_server_sessions]
      exact ih
    | setFirstInsertedOp h t => exact ih

/-- In a table whose non-final sessions are all closed, at most one
session is open. -/
lemma open_count_le_one (l : List ServerSession)
    (h : ∀ s ∈ l.dropLast, s.stopped_at ≠ none) :
    (l.filter (fun s => s.stopped_at == none)).length ≤ 1 := by
  induction l using List.reverseRecOn with
  | nil => simp
  | append_singleton l2 a ih =>
    have hdl : (l2 ++ [a]).dropLast = l2 := by simp
    rw [hdl] at h
    rw [List.filter_append]
    have hnil : l2.filter (fun s => s.stopped_at == none) = [] := by
      rw [List.filter_eq_nil_iff]
      intro s hs
      simp only [beq_iff_eq]
      exact h s hs
    rw [hnil, List.nil_append]
    cases hpa : (a.stopped_at == none) <;>
      simp [List.filter_singleton, hpa]

/-- Two sessions of a well-formed table sharing an id coincide. -/
lemma wf_id_inj (l : List ServerSession)
    (hp : l.Pairwise (fun a b => a.id < b.id)) (s1 s2 : ServerSession)
    (h1 : s1 ∈ l) (h2 : s2 ∈ l) (heq : s1.id = s2.id) : s1 = s2 := by
  have hnd : (l.map (·.id)).Nodup :=
    (List.pairwise_map.mpr hp).imp (fun h => ne_of_lt h)
  exact List.inj_on_of_nodup_map hnd h1 h2 heq

/-- C9: in every database reachable from the empty store through the
core's operations, at most one ServerSession has stopped_at = none, and
applying any further core operation never turns a closed session (by
id) back into an open one. -/
theorem session_open_invariant (db : Db) (hr : ReachableDb db) :
    (db.server_sessions.filter
      (fun s => s.stopped_at == none)).length ≤ 1 ∧
    ∀ (op : CoreOp) (s : ServerSession), s ∈ db.server_sessions →
      s.stopped_at ≠ none →
      ∀ s2 ∈ (apply_op op db).server_sessions, s2.id = s.id →
        s2.stopped_at ≠ none := by
  have hwf := reachable_sessions_wf db hr
  refine ⟨open_count_le_one _ hwf.2, ?_⟩
  intro op s hs hclosed s2 hs2 hid
  cases op with
  | monitorNewOp hosts now =>
    rw [show apply_op (CoreOp.monitorNewOp hosts now) db =
      (monitor_new db hosts now).db from rfl, monitor_new_sessions] at hs2
    rcases List.mem_append.mp hs2 with h2 | h2
    · exact reconcile_all_closed db hwf s2 h2
    · exfalso
      simp only [List.mem_singleton] at h2
      have hlt := session_id_lt_nextSessionId db s hs
      rw [h2] at hid
      simp only at hid
      rw [nextSessionId_reconcile] at hid
      omega
  | shutdownOp sid now =>
    rw [show apply_op (CoreOp.shutdownOp sid now) db =
      close_session db sid now "graceful" from rfl,
      close_session_server_sessions] at hs2
    obtain ⟨s0, hs0, rfl⟩ := List.mem_map.mp hs2
    by_cases hb : s0.id == sid
    · simp [hb]
    · have hbf : (s0.id == sid) = false := by simpa using hb
      simp only [hbf, Bool.false_eq_true, if_neg, not_false_iff] at hid ⊢
      rw [wf_id_inj _ hwf.1 s0 s hs0 hs hid]
      exact hclosed
  | recordEventOp h ty now =>
    rw [wf_id_inj _ hwf.1 s2 s hs2 hs hid]
    exact hclosed
  | recordPingOp h sc tc al now =>
    rw [wf_id_inj _ hwf.1 s2 s hs2 hs hid]
    exact hclosed
  | upsertHostOp c now =>
    rw [show (apply_op (CoreOp.upsertHostOp c now) db).server_sessions =
      db.server_sessions from upsert_host_server_sessions db c now] at hs2
    rw [wf_id_inj _ hwf.1 s2 s hs2 hs hid]
    exact hclosed
  | setFirstInsertedOp h t =>
    rw [wf_id_inj _ hwf.1 s2 s hs2 hs hid]
    exact hclosed

/-- Witness for C9: the database after one Monitor startup over the
empty store is reachable, and the invariant holds for it. -/
theorem session_open_invariant_witness :
    ((apply_op (CoreOp.monitorNewOp [] 5)
        Db.empty).server_sessions.filter
      (fun s => s.stopped_at == none)).length ≤ 1 ∧
    ∀ (op : CoreOp) (s : ServerSession),
      s ∈ (apply_op (CoreOp.monitorNewOp [] 5) Db.empty).server_sessions →
      s.stopped_at ≠ none →
      ∀ s2 ∈ (apply_op op
          (apply_op (CoreOp.monitorNewOp [] 5) Db.empty)).server_sessions,
        s2.id = s.id → s2.stopped_at ≠ none :=
  session_open_invariant (apply_op (CoreOp.monitorNewOp [] 5) Db.empty)
    (ReachableDb.step (CoreOp.monitorNewOp [] 5) ReachableDb.empty)

end Oxmon
